import Mathlib

/-!
# Verification of the adaptive mesh-measurement engine

Shallow embedding of `extract_measurements_adaptive.py` (and the shared
calibration formula of `extract_accurate_measurements.py`) from the
`4D-Humans-clean` measurement scripts.  Mesh vertices are embedded as
rational triples (exact arithmetic in place of IEEE floats); the final
circumference formulas, which involve `π` and square roots, live in `ℝ`.

Conventions matching the source:
* axis 1 (`y`) is the height axis, axes 0 and 2 (`x`, `z`) span the
  cross-section plane;
* numpy boolean masks over the vertex array become `List.filter`;
* `scipy.spatial.ConvexHull` on 2-D points is modelled by Andrew's
  monotone-chain construction over exact rationals (`convexHull2D`);
  the `None` result models the `QhullError` raised on degenerate input
  (fewer than three distinct points, or all points collinear), which the
  source catches with a bare `except:`;
* Python float truthiness (`if chest_circ:`) is embedded explicitly:
  `None` and `0.0` are falsy.
-/

namespace AvatarMeasure

/-- A mesh vertex, as one row of `mesh.vertices` (axis 1 = height). -/
structure Vec3 where
  x : ℚ
  y : ℚ
  z : ℚ
deriving DecidableEq, Repr

/-- A mesh is the ordered vertex list (`mesh.vertices`). -/
abbrev Mesh := List Vec3

/-- `np.max` over a nonempty coordinate list (0 on the empty list, which the
source never evaluates: every use is guarded by a nonemptiness check). -/
def listMax : List ℚ → ℚ
  | [] => 0
  | v :: vs => vs.foldl max v

/-- `np.min` over a nonempty coordinate list (0 on the empty list). -/
def listMin : List ℚ → ℚ
  | [] => 0
  | v :: vs => vs.foldl min v

/-- `vertices[:, 1]`. -/
def ys (verts : Mesh) : List ℚ := verts.map Vec3.y

/-- `vertices[:, 0]`. -/
def xs (verts : Mesh) : List ℚ := verts.map Vec3.x

/-- `vertices[:, 2]`. -/
def zs (verts : Mesh) : List ℚ := verts.map Vec3.z

/-- `vertices[:, 1].max() - vertices[:, 1].min()`: the raw height-axis
extent (`y_range` / `mesh_height`). -/
def yRange (verts : Mesh) : ℚ := listMax (ys verts) - listMin (ys verts)

/-- The slice mask `np.abs(vertices[:, 1] - y_level) < thickness`, applied:
the retained vertex sublist. -/
def sliceVerts (verts : Mesh) (yLevel thickness : ℚ) : Mesh :=
  verts.filter (fun v => |v.y - yLevel| < thickness)

/-- `mask.sum()` = number of vertices retained by the slice mask. -/
def sliceCount (verts : Mesh) (yLevel thickness : ℚ) : ℕ :=
  (sliceVerts verts yLevel thickness).length

/-- `slice_verts[:, [0, 2]]`: projection of the slice to the cross-section
plane. -/
def xzPoints (verts : Mesh) : List (ℚ × ℚ) := verts.map (fun v => (v.x, v.z))

/-! ## Model of `scipy.spatial.ConvexHull` on 2-D point sets

Andrew's monotone chain over exact rationals.  `convexHull2D` returns the
hull vertices as a counterclockwise cycle, or `none` in the degenerate
situations in which qhull raises `QhullError` (fewer than three distinct
input points, or all input points collinear). -/

/-- Lexicographic order on 2-D points (x first, then y). -/
def lexLe (p q : ℚ × ℚ) : Bool := p.1 < q.1 || (p.1 = q.1 && p.2 ≤ q.2)

/-- Insert into a lex-sorted list. -/
def insertLex (p : ℚ × ℚ) : List (ℚ × ℚ) → List (ℚ × ℚ)
  | [] => [p]
  | q :: rest => if lexLe p q then p :: q :: rest else q :: insertLex p rest

/-- Insertion sort by the lexicographic order. -/
def sortLex : List (ℚ × ℚ) → List (ℚ × ℚ)
  | [] => []
  | p :: rest => insertLex p (sortLex rest)

/-- Collapse adjacent duplicates (a sorted list keeps equal points
adjacent); coincident input points contribute one hull candidate. -/
def dedupAdj : List (ℚ × ℚ) → List (ℚ × ℚ)
  | [] => []
  | [p] => [p]
  | p :: q :: rest => if p = q then dedupAdj (q :: rest) else p :: dedupAdj (q :: rest)

/-- 2-D cross product of `oa` and `ob`: positive iff `o → a → b` is a
counterclockwise turn. -/
def cross (o a b : ℚ × ℚ) : ℚ :=
  (a.1 - o.1) * (b.2 - o.2) - (a.2 - o.2) * (b.1 - o.1)

/-- One monotone-chain step: push `p` onto the chain (kept reversed, most
recent point first), popping points that no longer form a strict turn. -/
def chainStep : List (ℚ × ℚ) → ℚ × ℚ → List (ℚ × ℚ)
  | [], p => [p]
  | [b], p => [p, b]
  | b :: a :: rest, p =>
      if cross a b p ≤ 0 then chainStep (a :: rest) p else p :: b :: a :: rest

/-- Build one hull chain over an (ordered) point list. -/
def buildChain (pts : List (ℚ × ℚ)) : List (ℚ × ℚ) :=
  (pts.foldl chainStep []).reverse

/-- The convex hull of a 2-D point set as a counterclockwise vertex cycle;
`none` models qhull's `QhullError` on degenerate input. -/
def convexHull2D (pts : List (ℚ × ℚ)) : Option (List (ℚ × ℚ)) :=
  let s := dedupAdj (sortLex pts)
  if s.length < 3 then none
  else
    let lower := buildChain s
    let upper := buildChain s.reverse
    let cyc := lower.dropLast ++ upper.dropLast
    if cyc.length < 3 then none else some cyc

/-- Squared Euclidean distance between two 2-D points (rational). -/
def sqDist (p q : ℚ × ℚ) : ℚ := (q.1 - p.1) ^ 2 + (q.2 - p.2) ^ 2

/-- Perimeter of a vertex cycle: `sum of np.linalg.norm(p2 - p1)` over
consecutive hull vertices, wrapping around (`(i + 1) % n`). -/
noncomputable def perimeter (cyc : List (ℚ × ℚ)) : ℝ :=
  ((cyc.zip (cyc.rotate 1)).map (fun e => Real.sqrt ((sqDist e.1 e.2 : ℚ) : ℝ))).sum

/-! ## The three circumference estimators -/

/-- Bounding-box width of the slice cross-section in cm:
`(xz_points[:, 0].max() - xz_points[:, 0].min()) * 100`. -/
def widthCm (verts : Mesh) (yLevel thickness : ℚ) : ℚ :=
  let pts := sliceVerts verts yLevel thickness
  (listMax (xs pts) - listMin (xs pts)) * 100

/-- Bounding-box depth of the slice cross-section in cm:
`(xz_points[:, 1].max() - xz_points[:, 1].min()) * 100`. -/
def depthCm (verts : Mesh) (yLevel thickness : ℚ) : ℚ :=
  let pts := sliceVerts verts yLevel thickness
  (listMax (zs pts) - listMin (zs pts)) * 100

/-- `np.pi * (a + b)` with `a, b` the bounding-box semi-axes. -/
noncomputable def simpleEllipse (a b : ℚ) : ℝ := Real.pi * ((a + b : ℚ) : ℝ)

/-- Ramanujan's approximation
`np.pi * (3 * (a + b) - np.sqrt((3 * a + b) * (a + 3 * b)))`. -/
noncomputable def ramanujanEllipse (a b : ℚ) : ℝ :=
  Real.pi * (((3 * (a + b) : ℚ) : ℝ) - Real.sqrt (((3 * a + b) * (a + 3 * b) : ℚ) : ℝ))

/-- `calculate_circumference_method1`: convex hull perimeter, with the
`except:` fallback to the Ramanujan bounding-box formula when hull
construction fails.  `none` embeds Python's `None`. -/
noncomputable def method1 (verts : Mesh) (yLevel : ℚ) (sliceThickness : ℚ) :
    Option ℝ :=
  let thickness := yRange verts * sliceThickness
  let slice := sliceVerts verts yLevel thickness
  if slice.length < 10 then none
  else
    let pts := xzPoints slice
    match convexHull2D pts with
    | some cyc => some (perimeter cyc * 100)
    | none =>
        let width := (listMax (pts.map Prod.fst) - listMin (pts.map Prod.fst)) * 100
        let depth := (listMax (pts.map Prod.snd) - listMin (pts.map Prod.snd)) * 100
        some (ramanujanEllipse (width / 2) (depth / 2))

/-- `calculate_circumference_method2`: simple ellipse approximation. -/
noncomputable def method2 (verts : Mesh) (yLevel : ℚ) (sliceThickness : ℚ) :
    Option ℝ :=
  let thickness := yRange verts * sliceThickness
  let slice := sliceVerts verts yLevel thickness
  if slice.length < 10 then none
  else
    let pts := xzPoints slice
    let width := (listMax (pts.map Prod.fst) - listMin (pts.map Prod.fst)) * 100
    let depth := (listMax (pts.map Prod.snd) - listMin (pts.map Prod.snd)) * 100
    some (simpleEllipse (width / 2) (depth / 2))

/-- `calculate_circumference_method3`: Ramanujan approximation. -/
noncomputable def method3 (verts : Mesh) (yLevel : ℚ) (sliceThickness : ℚ) :
    Option ℝ :=
  let thickness := yRange verts * sliceThickness
  let slice := sliceVerts verts yLevel thickness
  if slice.length < 10 then none
  else
    let pts := xzPoints slice
    let width := (listMax (pts.map Prod.fst) - listMin (pts.map Prod.fst)) * 100
    let depth := (listMax (pts.map Prod.snd) - listMin (pts.map Prod.snd)) * 100
    some (ramanujanEllipse (width / 2) (depth / 2))

/-! ## Landmark Locator (`find_adaptive_landmarks`)

Each search loop `for y in search_y: ...` is embedded as structural
recursion over the sample list, carrying the loop state
(`min_width`/`max_width` and the best `y` so far).  `float('inf')` is
embedded as `none` in the `Option ℚ` running minimum. -/

/-- `np.linspace(a, b, n)`: `n` evenly spaced samples including both
endpoints. -/
def linspace (a b : ℚ) (n : ℕ) : List ℚ :=
  (List.range n).map (fun i => a + (b - a) * (i : ℚ) / ((n - 1 : ℕ) : ℚ))

/-- Width (mesh units) of a slice along the x axis:
`slice_verts[:, 0].max() - slice_verts[:, 0].min()`. -/
def sliceWidthX (verts : Mesh) (yLevel thickness : ℚ) : ℚ :=
  let s := sliceVerts verts yLevel thickness
  listMax (xs s) - listMin (xs s)

/-- `width < min_width` where `min_width` starts at `float('inf')`
(embedded as `none`). -/
def ltMin (w : ℚ) : Option ℚ → Bool
  | none => true
  | some m => decide (w < m)

/-- The narrowest-point search loop (waist, neck, knee): state is
`(min_width, best_y)`. -/
def snGo (verts : Mesh) (th : ℚ) : Option ℚ → Option ℚ → List ℚ → Option ℚ
  | _, besty, [] => besty
  | minw, besty, y :: rest =>
      if 10 < sliceCount verts y th then
        if ltMin (sliceWidthX verts y th) minw then
          snGo verts th (some (sliceWidthX verts y th)) (some y) rest
        else snGo verts th minw besty rest
      else snGo verts th minw besty rest

/-- The widest-point search loop (chest, hip): state is
`(max_width, best_y)` with `max_width` starting at `0`. -/
def swGo (verts : Mesh) (th : ℚ) : ℚ → Option ℚ → List ℚ → Option ℚ
  | _, besty, [] => besty
  | maxw, besty, y :: rest =>
      if 10 < sliceCount verts y th then
        if maxw < sliceWidthX verts y th then
          swGo verts th (sliceWidthX verts y th) (some y) rest
        else swGo verts th maxw besty rest
      else swGo verts th maxw besty rest

/-- Python truthiness in `waist_y if waist_y else default`: both `None`
and `0.0` select the default. -/
def fromTruthy (o : Option ℚ) (d : ℚ) : ℚ :=
  match o with
  | none => d
  | some v => if v = 0 then d else v

/-- The landmark dictionary built by `find_adaptive_landmarks`. -/
structure Landmarks where
  waist : ℚ
  chest : ℚ
  hip : ℚ
  neck : ℚ
  thigh : ℚ
  crotch : ℚ
deriving DecidableEq, Repr

/-- `find_adaptive_landmarks(vertices)`. -/
def findAdaptiveLandmarks (verts : Mesh) : Landmarks :=
  let yMin := listMin (ys verts)
  let yMax := listMax (ys verts)
  let yRg := yMax - yMin
  -- WAIST: narrowest point between 40-70% of height, 50 samples, 2% slices
  let waistY := snGo verts (yRg * (2/100)) none none
      (linspace (yMin + yRg * (4/10)) (yMin + yRg * (7/10)) 50)
  let waist := fromTruthy waistY (yMin + yRg * (55/100))
  -- CHEST: widest point between 70-90% of height, 40 samples, 3% slices
  let chestY := swGo verts (yRg * (3/100)) 0 none
      (linspace (yMin + yRg * (7/10)) (yMin + yRg * (9/10)) 40)
  let chest := fromTruthy chestY (yMin + yRg * (8/10))
  -- HIP: widest point between 30-55% of height, 40 samples, 4% slices
  let hipY := swGo verts (yRg * (4/100)) 0 none
      (linspace (yMin + yRg * (3/10)) (yMin + yRg * (55/100)) 40)
  let hip := fromTruthy hipY (yMin + yRg * (45/100))
  -- NECK: narrowest point between 85-95% of height, 30 samples, 2% slices
  let neckY := snGo verts (yRg * (2/100)) none none
      (linspace (yMin + yRg * (85/100)) (yMin + yRg * (95/100)) 30)
  let neck := fromTruthy neckY (yMin + yRg * (9/10))
  -- THIGH: midpoint of hip and knee; knee = narrowest point in 0-40%
  let kneeY := snGo verts (yRg * (2/100)) none none
      (linspace yMin (yMin + yRg * (4/10)) 30)
  -- `if knee_y and landmarks['hip']:` - Python truthiness on both
  let thigh :=
    match kneeY with
    | some k => if k ≠ 0 ∧ hip ≠ 0 then (hip + k) / 2 else yMin + yRg * (35/100)
    | none => yMin + yRg * (35/100)
  -- CROTCH: lowest y among vertices in the central 15%-of-x-range band
  let xCenter := (listMin (xs verts) + listMax (xs verts)) / 2
  let xRg := listMax (xs verts) - listMin (xs verts)
  let centerVerts := verts.filter (fun v => |v.x - xCenter| < xRg * (15/100))
  let crotch :=
    if 0 < centerVerts.length then listMin (ys centerVerts)
    else hip - yRg * (1/10)
  ⟨waist, chest, hip, neck, thigh, crotch⟩

/-! ## Calibration and Measurement Assembler
(`extract_measurements_adaptive`, file-I/O and printing stripped, no
calibration measurements supplied)

Note on division: `scale_factor = actual_height_cm / mesh_height_cm` is
embedded with rational division (Lean's `q / 0 = 0`, whereas numpy float
division by zero produces `inf` with a warning - in either system no
exception is raised; no theorem below evaluates this quotient at a
zero extent). -/

/-- `scale_factor = actual_height_cm / (mesh_height * 100)`.  The same
formula appears in `extract_measurements_with_height`
(`extract_accurate_measurements.py`). -/
def scaleFactorOf (verts : Mesh) (actualHeightCm : ℚ) : ℚ :=
  actualHeightCm / (yRange verts * 100)

/-- `scaled_vertices = vertices * scale_factor`. -/
def scaleVerts (verts : Mesh) (k : ℚ) : Mesh :=
  verts.map (fun v => ⟨v.x * k, v.y * k, v.z * k⟩)

open Classical in
/-- `measurements[name] = circ` guarded by `if circ:` - the entry is added
only when the estimator result is truthy (not `None` and not `0.0`). -/
noncomputable def consIfTruthy (name : String) (c : Option ℝ)
    (rest : List (String × ℝ)) : List (String × ℝ) :=
  match c with
  | none => rest
  | some v => if v = 0 then rest else (name, v) :: rest

/-- The measurement-assembly core of `extract_measurements_adaptive`:
scale to the supplied height, locate landmarks, estimate circumferences
with the per-landmark method/thickness policy, and collect the
measurement record (in the source's insertion order, `_metadata`
omitted). -/
noncomputable def extractCore (verts : Mesh) (actualHeightCm : ℚ) :
    List (String × ℝ) :=
  let scaleFactor := scaleFactorOf verts actualHeightCm
  let scaled := scaleVerts verts scaleFactor
  let lm := findAdaptiveLandmarks scaled
  let yMin := listMin (ys scaled)
  let yRg := listMax (ys scaled) - yMin
  let chestC := method3 scaled lm.chest (3/100)
  let waistC := method2 scaled lm.waist (1/100)
  let hipC := method1 scaled lm.hip (4/100)
  let neckC := method2 scaled lm.neck (2/100)
  let thighC := method1 scaled lm.thigh (3/100)
  let shoulderSlice := scaled.filter (fun v => |v.y - lm.chest| < yRg * (2/100))
  let shoulderEntry : List (String × ℝ) :=
    if 0 < shoulderSlice.length then
      [("shoulder_width_cm",
        (((listMax (xs shoulderSlice) - listMin (xs shoulderSlice)) * 100 : ℚ) : ℝ))]
    else []
  let armSpan : ℝ := (((listMax (xs scaled) - listMin (xs scaled)) * 100 : ℚ) : ℝ)
  let inseam : ℝ := (((lm.crotch - yMin) * 100 : ℚ) : ℝ)
  let torso : ℝ := (((lm.chest - lm.hip) * 100 : ℚ) : ℝ)
  let armLength : ℝ := ((yRg * (30/100) * 100 : ℚ) : ℝ)
  ("height_cm", (actualHeightCm : ℝ)) ::
    consIfTruthy "chest_circumference_cm" chestC
    (consIfTruthy "waist_circumference_cm" waistC
    (consIfTruthy "hip_circumference_cm" hipC
    (consIfTruthy "neck_circumference_cm" neckC
    (consIfTruthy "thigh_circumference_cm" thighC
    (shoulderEntry ++
      [("arm_span_cm", armSpan), ("inseam_cm", inseam),
       ("torso_length_cm", torso), ("arm_length_cm", armLength)])))))

/-- The measurement names present in an assembled record. -/
noncomputable def extractKeys (verts : Mesh) (actualHeightCm : ℚ) : List String :=
  (extractCore verts actualHeightCm).map Prod.fst

/-! ## Basic list lemmas -/

lemma filter_map_comm {α β : Type} (f : α → β) (p : β → Bool) (l : List α) :
    (l.map f).filter p = (l.filter (fun a => p (f a))).map f := by
  induction l with
  | nil => rfl
  | cons a t ih => cases h : p (f a) <;> simp [List.filter_cons, h, ih]

lemma foldl_max_mul_right (k : ℚ) (hk : 0 ≤ k) (l : List ℚ) :
    ∀ v, (l.map (fun q => q * k)).foldl max (v * k) = l.foldl max v * k := by
  induction l with
  | nil => intro v; rfl
  | cons a t ih =>
      intro v
      simp only [List.map_cons, List.foldl_cons]
      rw [← max_mul_of_nonneg v a hk, ih]

lemma foldl_min_mul_right (k : ℚ) (hk : 0 ≤ k) (l : List ℚ) :
    ∀ v, (l.map (fun q => q * k)).foldl min (v * k) = l.foldl min v * k := by
  induction l with
  | nil => intro v; rfl
  | cons a t ih =>
      intro v
      simp only [List.map_cons, List.foldl_cons]
      rw [← min_mul_of_nonneg v a hk, ih]

lemma listMax_map_mul_right (k : ℚ) (hk : 0 ≤ k) (l : List ℚ) :
    listMax (l.map (fun q => q * k)) = listMax l * k := by
  cases l with
  | nil => simp [listMax]
  | cons a t => simpa [listMax] using foldl_max_mul_right k hk t a

lemma listMin_map_mul_right (k : ℚ) (hk : 0 ≤ k) (l : List ℚ) :
    listMin (l.map (fun q => q * k)) = listMin l * k := by
  cases l with
  | nil => simp [listMin]
  | cons a t => simpa [listMin] using foldl_min_mul_right k hk t a

lemma foldl_min_le_foldl_max (l : List ℚ) :
    ∀ v w : ℚ, v ≤ w → l.foldl min v ≤ l.foldl max w := by
  induction l with
  | nil => intro v w h; exact h
  | cons a t ih =>
      intro v w h
      exact ih _ _ (le_trans (min_le_left v a) (le_trans h (le_max_left w a)))

lemma listMin_le_listMax {l : List ℚ} (h : l ≠ []) : listMin l ≤ listMax l := by
  cases l with
  | nil => exact absurd rfl h
  | cons a t => exact foldl_min_le_foldl_max t a a le_rfl

lemma foldl_max_const {l : List ℚ} {c : ℚ} (h : ∀ q ∈ l, q = c) :
    l.foldl max c = c := by
  induction l with
  | nil => rfl
  | cons a t ih =>
      have ha : a = c := h a (List.mem_cons_self a t)
      simp only [List.foldl_cons, ha, max_self]
      exact ih (fun q hq => h q (List.mem_cons_of_mem a hq))

lemma foldl_min_const {l : List ℚ} {c : ℚ} (h : ∀ q ∈ l, q = c) :
    l.foldl min c = c := by
  induction l with
  | nil => rfl
  | cons a t ih =>
      have ha : a = c := h a (List.mem_cons_self a t)
      simp only [List.foldl_cons, ha, min_self]
      exact ih (fun q hq => h q (List.mem_cons_of_mem a hq))

lemma listMax_sub_listMin_const {l : List ℚ} {c : ℚ} (h : ∀ q ∈ l, q = c) :
    listMax l - listMin l = 0 := by
  cases l with
  | nil => simp [listMax, listMin]
  | cons a t =>
      have ha : a = c := h a (List.mem_cons_self a t)
      have ht : ∀ q ∈ t, q = c := fun q hq => h q (List.mem_cons_of_mem a hq)
      simp [listMax, listMin, ha, foldl_max_const ht, foldl_min_const ht]

lemma sliceCount_le_length (verts : Mesh) (yLevel thickness : ℚ) :
    sliceCount verts yLevel thickness ≤ verts.length :=
  List.length_filter_le _ verts

lemma mem_of_mem_sliceVerts {verts : Mesh} {yLevel thickness : ℚ} {v : Vec3}
    (h : v ∈ sliceVerts verts yLevel thickness) : v ∈ verts :=
  List.mem_of_mem_filter h

lemma xzPoints_map_fst (l : Mesh) : (xzPoints l).map Prod.fst = xs l := by
  simp [xzPoints, xs, List.map_map, Function.comp]

lemma xzPoints_map_snd (l : Mesh) : (xzPoints l).map Prod.snd = zs l := by
  simp [xzPoints, zs, List.map_map, Function.comp]

/-! ## Search-loop lemmas -/

/-- If no sample in the list yields a valid slice, a narrowest-point search
leaves its accumulator untouched. -/
lemma snGo_of_no_valid (verts : Mesh) (th : ℚ) (samples : List ℚ)
    (h : ∀ y ∈ samples, ¬ 10 < sliceCount verts y th) :
    ∀ minw besty, snGo verts th minw besty samples = besty := by
  induction samples with
  | nil => intro minw besty; rfl
  | cons s rest ih =>
      intro minw besty
      have hs := h s (List.mem_cons_self s rest)
      simp only [snGo, if_neg hs]
      exact ih (fun y hy => h y (List.mem_cons_of_mem s hy)) minw besty

/-- If no sample in the list yields a valid slice, a widest-point search
leaves its accumulator untouched. -/
lemma swGo_of_no_valid (verts : Mesh) (th : ℚ) (samples : List ℚ)
    (h : ∀ y ∈ samples, ¬ 10 < sliceCount verts y th) :
    ∀ maxw besty, swGo verts th maxw besty samples = besty := by
  induction samples with
  | nil => intro maxw besty; rfl
  | cons s rest ih =>
      intro maxw besty
      have hs := h s (List.mem_cons_self s rest)
      simp only [swGo, if_neg hs]
      exact ih (fun y hy => h y (List.mem_cons_of_mem s hy)) maxw besty

/-- A widest-point search in which every slice width is zero never updates
its `max_width = 0` accumulator. -/
lemma swGo_of_zero_width (verts : Mesh) (th : ℚ) (samples : List ℚ)
    (h : ∀ y ∈ samples, sliceWidthX verts y th = 0) :
    ∀ besty, swGo verts th 0 besty samples = besty := by
  induction samples with
  | nil => intro besty; rfl
  | cons s rest ih =>
      intro besty
      have hs : ¬ (0 : ℚ) < sliceWidthX verts s th := by
        rw [h s (List.mem_cons_self s rest)]; exact lt_irrefl 0
      have ht : ∀ y ∈ rest, sliceWidthX verts y th = 0 :=
        fun y hy => h y (List.mem_cons_of_mem s hy)
      by_cases hc : 10 < sliceCount verts s th
      · simp only [swGo, if_pos hc, if_neg hs]
        exact ih ht besty
      · simp only [swGo, if_neg hc]
        exact ih ht besty

lemma ltMin_some_iff {w m : ℚ} : ltMin w (some m) = true ↔ w < m := by
  simp [ltMin]

lemma ltMin_none_eq (w : ℚ) : ltMin w none = true := rfl

/-- Where a narrowest-point search loop can return `some y`: either the
incoming accumulator already held `y` and no sample improved on the
running minimum, or `y` splits the sample list so that every valid
earlier sample is strictly wider and every valid later sample is at
least as wide - ties are broken by the earliest sample in scan order. -/
lemma snGo_some_spec (verts : Mesh) (th : ℚ) :
    ∀ (samples : List ℚ) (minw besty : Option ℚ) (y : ℚ),
      snGo verts th minw besty samples = some y →
      (besty = some y ∧ ∀ z ∈ samples, 10 < sliceCount verts z th →
          ltMin (sliceWidthX verts z th) minw = false) ∨
      (∃ pre post, samples = pre ++ y :: post ∧ 10 < sliceCount verts y th ∧
          ltMin (sliceWidthX verts y th) minw = true ∧
          (∀ z ∈ pre, 10 < sliceCount verts z th →
            sliceWidthX verts y th < sliceWidthX verts z th) ∧
          (∀ z ∈ post, 10 < sliceCount verts z th →
            sliceWidthX verts y th ≤ sliceWidthX verts z th)) := by
  intro samples
  induction samples with
  | nil =>
      intro minw besty y h
      exact Or.inl ⟨h, by simp⟩
  | cons s rest ih =>
      intro minw besty y h
      by_cases hv : 10 < sliceCount verts s th
      · by_cases hl : ltMin (sliceWidthX verts s th) minw = true
        · rw [snGo, if_pos hv, if_pos hl] at h
          rcases ih _ _ _ h with ⟨hsy, hall⟩ | ⟨pre, post, hsplit, hvy, hly, hpre, hpost⟩
          · -- the new sample s itself is the final answer
            have hs : s = y := Option.some.inj hsy
            refine Or.inr ⟨[], rest, by rw [hs]; rfl, hs ▸ hv, hs ▸ hl, by simp, ?_⟩
            intro z hz hvz
            have := hall z hz hvz
            rw [hs] at this
            by_contra hcon
            push_neg at hcon
            rw [ltMin_some_iff.mpr hcon] at this
            exact Bool.true_eq_false.mp this
          · -- the final answer comes from deeper in the list
            have hwy : sliceWidthX verts y th < sliceWidthX verts s th :=
              ltMin_some_iff.mp hly
            refine Or.inr ⟨s :: pre, post, by rw [hsplit]; rfl, hvy, ?_, ?_, hpost⟩
            · cases minw with
              | none => exact ltMin_none_eq _
              | some m =>
                  exact ltMin_some_iff.mpr (lt_trans hwy (ltMin_some_iff.mp hl))
            · intro z hz hvz
              rcases List.mem_cons.mp hz with hzs | hzp
              · exact hzs ▸ hwy
              · exact hpre z hzp hvz
        · rw [snGo, if_pos hv, if_neg hl] at h
          rcases ih _ _ _ h with ⟨hsy, hall⟩ | ⟨pre, post, hsplit, hvy, hly, hpre, hpost⟩
          · refine Or.inl ⟨hsy, ?_⟩
            intro z hz hvz
            rcases List.mem_cons.mp hz with hzs | hzp
            · subst hzs; exact Bool.not_eq_true _ ▸ (by simpa using hl)
            · exact hall z hzp hvz
          · refine Or.inr ⟨s :: pre, post, by rw [hsplit]; rfl, hvy, hly, ?_, hpost⟩
            intro z hz hvz
            rcases List.mem_cons.mp hz with hzs | hzp
            · subst hzs
              cases minw with
              | none => exact absurd (ltMin_none_eq _) hl
              | some m =>
                  have hms : m ≤ sliceWidthX verts z th := by
                    by_contra hcon
                    push_neg at hcon
                    exact hl (ltMin_some_iff.mpr hcon)
                  exact lt_of_lt_of_le (ltMin_some_iff.mp hly) hms
            · exact hpre z hzp hvz
      · rw [snGo, if_neg hv] at h
        rcases ih _ _ _ h with ⟨hsy, hall⟩ | ⟨pre, post, hsplit, hvy, hly, hpre, hpost⟩
        · refine Or.inl ⟨hsy, ?_⟩
          intro z hz hvz
          rcases List.mem_cons.mp hz with hzs | hzp
          · exact absurd (hzs ▸ hvz) hv
          · exact hall z hzp hvz
        · refine Or.inr ⟨s :: pre, post, by rw [hsplit]; rfl, hvy, hly, ?_, hpost⟩
          intro z hz hvz
          rcases List.mem_cons.mp hz with hzs | hzp
          · exact absurd (hzs ▸ hvz) hv
          · exact hpre z hzp hvz

/-- Where a widest-point search loop can return `some y`: either the
incoming accumulator already held `y` and no valid sample beat the
running maximum, or `y` splits the sample list so that every valid
earlier sample is strictly narrower and every valid later sample is at
most as wide - ties are broken by the earliest sample in scan order, and
the selected width strictly exceeds the incoming `max_width`. -/
lemma swGo_some_spec (verts : Mesh) (th : ℚ) :
    ∀ (samples : List ℚ) (maxw : ℚ) (besty : Option ℚ) (y : ℚ),
      swGo verts th maxw besty samples = some y →
      (besty = some y ∧ ∀ z ∈ samples, 10 < sliceCount verts z th →
          sliceWidthX verts z th ≤ maxw) ∨
      (∃ pre post, samples = pre ++ y :: post ∧ 10 < sliceCount verts y th ∧
          maxw < sliceWidthX verts y th ∧
          (∀ z ∈ pre, 10 < sliceCount verts z th →
            sliceWidthX verts z th < sliceWidthX verts y th) ∧
          (∀ z ∈ post, 10 < sliceCount verts z th →
            sliceWidthX verts z th ≤ sliceWidthX verts y th)) := by
  intro samples
  induction samples with
  | nil =>
      intro maxw besty y h
      exact Or.inl ⟨h, by simp⟩
  | cons s rest ih =>
      intro maxw besty y h
      by_cases hv : 10 < sliceCount verts s th
      · by_cases hl : maxw < sliceWidthX verts s th
        · rw [swGo, if_pos hv, if_pos hl] at h
          rcases ih _ _ _ h with ⟨hsy, hall⟩ | ⟨pre, post, hsplit, hvy, hly, hpre, hpost⟩
          · have hs : s = y := Option.some.inj hsy
            refine Or.inr ⟨[], rest, by rw [hs]; rfl, hs ▸ hv, hs ▸ hl, by simp, ?_⟩
            intro z hz hvz
            have := hall z hz hvz
            rw [hs] at this
            exact this
          · refine Or.inr ⟨s :: pre, post, by rw [hsplit]; rfl, hvy,
              lt_trans hl hly, ?_, hpost⟩
            intro z hz hvz
            rcases List.mem_cons.mp hz with hzs | hzp
            · exact hzs ▸ hly
            · exact hpre z hzp hvz
        · rw [swGo, if_pos hv, if_neg hl] at h
          rcases ih _ _ _ h with ⟨hsy, hall⟩ | ⟨pre, post, hsplit, hvy, hly, hpre, hpost⟩
          · refine Or.inl ⟨hsy, ?_⟩
            intro z hz hvz
            rcases List.mem_cons.mp hz with hzs | hzp
            · exact hzs ▸ (not_lt.mp hl)
            · exact hall z hzp hvz
          · refine Or.inr ⟨s :: pre, post, by rw [hsplit]; rfl, hvy, hly, ?_, hpost⟩
            intro z hz hvz
            rcases List.mem_cons.mp hz with hzs | hzp
            · exact hzs ▸ (lt_of_le_of_lt (not_lt.mp hl) hly)
            · exact hpre z hzp hvz
      · rw [swGo, if_neg hv] at h
        rcases ih _ _ _ h with ⟨hsy, hall⟩ | ⟨pre, post, hsplit, hvy, hly, hpre, hpost⟩
        · refine Or.inl ⟨hsy, ?_⟩
          intro z hz hvz
          rcases List.mem_cons.mp hz with hzs | hzp
          · exact absurd (hzs ▸ hvz) hv
          · exact hall z hzp hvz
        · refine Or.inr ⟨s :: pre, post, by rw [hsplit]; rfl, hvy, hly, ?_, hpost⟩
          intro z hz hvz
          rcases List.mem_cons.mp hz with hzs | hzp
          · exact absurd (hzs ▸ hvz) hv
          · exact hpre z hzp hvz

/-! ## Landmark fallback lemmas -/

/-- A mesh with at most 10 vertices can never produce a valid search slice
(`mask.sum() > 10`), so every geometry search falls back to its
hard-coded ratio. -/
lemma findAdaptiveLandmarks_of_small (verts : Mesh) (h : verts.length ≤ 10) :
    (findAdaptiveLandmarks verts).waist
        = listMin (ys verts) + (listMax (ys verts) - listMin (ys verts)) * (55/100) ∧
    (findAdaptiveLandmarks verts).chest
        = listMin (ys verts) + (listMax (ys verts) - listMin (ys verts)) * (8/10) ∧
    (findAdaptiveLandmarks verts).hip
        = listMin (ys verts) + (listMax (ys verts) - listMin (ys verts)) * (45/100) ∧
    (findAdaptiveLandmarks verts).neck
        = listMin (ys verts) + (listMax (ys verts) - listMin (ys verts)) * (9/10) ∧
    (findAdaptiveLandmarks verts).thigh
        = listMin (ys verts) + (listMax (ys verts) - listMin (ys verts)) * (35/100) := by
  have hno : ∀ (th : ℚ) (samples : List ℚ), ∀ y ∈ samples, ¬ 10 < sliceCount verts y th := by
    intro th samples y _
    have := sliceCount_le_length verts y th
    omega
  simp only [findAdaptiveLandmarks]
  rw [snGo_of_no_valid verts _ _ (hno _ _), swGo_of_no_valid verts _ _ (hno _ _),
      swGo_of_no_valid verts _ _ (hno _ _), snGo_of_no_valid verts _ _ (hno _ _),
      snGo_of_no_valid verts _ _ (hno _ _)]
  simp [fromTruthy]

/-- If every sample in the hip search window has an invalid slice, the hip
landmark is the hard-coded `y_min + y_range * 0.45` fallback (not the
midpoint of the `[0.30, 0.55]` window, which would be `0.425`). -/
lemma hip_fallback_of_no_valid (verts : Mesh)
    (h : ∀ y ∈ linspace
        (listMin (ys verts) + (listMax (ys verts) - listMin (ys verts)) * (3/10))
        (listMin (ys verts) + (listMax (ys verts) - listMin (ys verts)) * (55/100)) 40,
        ¬ 10 < sliceCount verts y ((listMax (ys verts) - listMin (ys verts)) * (4/100))) :
    (findAdaptiveLandmarks verts).hip
        = listMin (ys verts) + (listMax (ys verts) - listMin (ys verts)) * (45/100) := by
  simp only [findAdaptiveLandmarks]
  rw [swGo_of_no_valid verts _ _ h]
  simp [fromTruthy]

/-! ## Degenerate-hull lemmas -/

lemma mem_insertLex {p q : ℚ × ℚ} {l : List (ℚ × ℚ)} :
    q ∈ insertLex p l ↔ q = p ∨ q ∈ l := by
  induction l with
  | nil => simp [insertLex]
  | cons a t ih =>
      by_cases h : lexLe p a
      · simp [insertLex, h]
      · simp [insertLex, h, ih]
        tauto

lemma mem_sortLex {q : ℚ × ℚ} {l : List (ℚ × ℚ)} : q ∈ sortLex l ↔ q ∈ l := by
  induction l with
  | nil => simp [sortLex]
  | cons a t ih => simp [sortLex, mem_insertLex, ih]

lemma dedupAdj_length_le_one_of_const :
    ∀ (l : List (ℚ × ℚ)) (p : ℚ × ℚ), (∀ q ∈ l, q = p) → (dedupAdj l).length ≤ 1
  | [], _, _ => by simp [dedupAdj]
  | [_], _, _ => by simp [dedupAdj]
  | q1 :: q2 :: rest, p, h => by
      have h1 : q1 = p := h q1 (by simp)
      have h2 : q2 = p := h q2 (by simp)
      rw [dedupAdj, if_pos (h1.trans h2.symm)]
      exact dedupAdj_length_le_one_of_const (q2 :: rest) p
        (fun q hq => h q (List.mem_cons_of_mem q1 hq))

/-- All input points coincident: the hull model fails (as qhull does). -/
lemma convexHull2D_of_const {pts : List (ℚ × ℚ)} {p : ℚ × ℚ}
    (h : ∀ q ∈ pts, q = p) : convexHull2D pts = none := by
  have hs : ∀ q ∈ sortLex pts, q = p := fun q hq => h q (mem_sortLex.mp hq)
  have hlen : (dedupAdj (sortLex pts)).length ≤ 1 :=
    dedupAdj_length_le_one_of_const _ p hs
  unfold convexHull2D
  rw [if_pos (by omega)]

/-! ## Estimator shape lemmas -/

lemma method2_eq_none_iff (verts : Mesh) (y st : ℚ) :
    method2 verts y st = none ↔
      (sliceVerts verts y (yRange verts * st)).length < 10 := by
  by_cases h : (sliceVerts verts y (yRange verts * st)).length < 10 <;>
    simp [method2, h]

lemma method3_eq_none_iff (verts : Mesh) (y st : ℚ) :
    method3 verts y st = none ↔
      (sliceVerts verts y (yRange verts * st)).length < 10 := by
  by_cases h : (sliceVerts verts y (yRange verts * st)).length < 10 <;>
    simp [method3, h]

lemma method1_eq_none_iff (verts : Mesh) (y st : ℚ) :
    method1 verts y st = none ↔
      (sliceVerts verts y (yRange verts * st)).length < 10 := by
  by_cases h : (sliceVerts verts y (yRange verts * st)).length < 10
  · simp [method1, h]
  · simp only [method1, if_neg h]
    cases convexHull2D (xzPoints (sliceVerts verts y (yRange verts * st))) <;> simp [h]

lemma method2_eq_some (verts : Mesh) (y st : ℚ)
    (h : ¬ (sliceVerts verts y (yRange verts * st)).length < 10) :
    method2 verts y st = some (simpleEllipse
      (widthCm verts y (yRange verts * st) / 2)
      (depthCm verts y (yRange verts * st) / 2)) := by
  simp only [method2, if_neg h, xzPoints_map_fst, xzPoints_map_snd]
  rfl

lemma method3_eq_some (verts : Mesh) (y st : ℚ)
    (h : ¬ (sliceVerts verts y (yRange verts * st)).length < 10) :
    method3 verts y st = some (ramanujanEllipse
      (widthCm verts y (yRange verts * st) / 2)
      (depthCm verts y (yRange verts * st) / 2)) := by
  simp only [method3, if_neg h, xzPoints_map_fst, xzPoints_map_snd]
  rfl

lemma method1_eq_hull (verts : Mesh) (y st : ℚ) (cyc : List (ℚ × ℚ))
    (h : ¬ (sliceVerts verts y (yRange verts * st)).length < 10)
    (hh : convexHull2D (xzPoints (sliceVerts verts y (yRange verts * st))) = some cyc) :
    method1 verts y st = some (perimeter cyc * 100) := by
  simp only [method1, if_neg h, hh]

lemma method1_eq_fallback (verts : Mesh) (y st : ℚ)
    (h : ¬ (sliceVerts verts y (yRange verts * st)).length < 10)
    (hh : convexHull2D (xzPoints (sliceVerts verts y (yRange verts * st))) = none) :
    method1 verts y st = some (ramanujanEllipse
      (widthCm verts y (yRange verts * st) / 2)
      (depthCm verts y (yRange verts * st) / 2)) := by
  simp only [method1, if_neg h, hh, xzPoints_map_fst, xzPoints_map_snd]
  rfl

/-! ## Coincident-slice lemmas -/

lemma widthCm_of_coincident {verts : Mesh} {y th cx : ℚ}
    (hx : ∀ v ∈ sliceVerts verts y th, v.x = cx) : widthCm verts y th = 0 := by
  have hxs : ∀ q ∈ xs (sliceVerts verts y th), q = cx := by
    intro q hq
    rcases List.mem_map.mp hq with ⟨v, hv, rfl⟩
    exact hx v hv
  simp [widthCm, listMax_sub_listMin_const hxs]

lemma depthCm_of_coincident {verts : Mesh} {y th cz : ℚ}
    (hz : ∀ v ∈ sliceVerts verts y th, v.z = cz) : depthCm verts y th = 0 := by
  have hzs : ∀ q ∈ zs (sliceVerts verts y th), q = cz := by
    intro q hq
    rcases List.mem_map.mp hq with ⟨v, hv, rfl⟩
    exact hz v hv
  simp [depthCm, listMax_sub_listMin_const hzs]

lemma simpleEllipse_zero : simpleEllipse 0 0 = 0 := by
  simp [simpleEllipse]

lemma ramanujanEllipse_zero : ramanujanEllipse 0 0 = 0 := by
  simp [ramanujanEllipse]

/-- On a slice that passes the 10-vertex check but whose projected points
all coincide, each of the three estimators returns `0.0` (a value, not
`None`) and no division occurs anywhere in their formulas. -/
lemma methods_of_coincident (verts : Mesh) (y st cx cz : ℚ)
    (hc : ¬ (sliceVerts verts y (yRange verts * st)).length < 10)
    (hx : ∀ v ∈ sliceVerts verts y (yRange verts * st), v.x = cx)
    (hz : ∀ v ∈ sliceVerts verts y (yRange verts * st), v.z = cz) :
    method1 verts y st = some 0 ∧ method2 verts y st = some 0 ∧
      method3 verts y st = some 0 := by
  have hW := widthCm_of_coincident hx
  have hD := depthCm_of_coincident hz
  have hhull : convexHull2D (xzPoints (sliceVerts verts y (yRange verts * st))) = none := by
    refine convexHull2D_of_const (p := (cx, cz)) ?_
    intro q hq
    rcases List.mem_map.mp hq with ⟨v, hv, rfl⟩
    rw [hx v hv, hz v hv]
  refine ⟨?_, ?_, ?_⟩
  · rw [method1_eq_fallback verts y st hc hhull, hW, hD]
    norm_num [ramanujanEllipse_zero]
  · rw [method2_eq_some verts y st hc, hW, hD]
    norm_num [simpleEllipse_zero]
  · rw [method3_eq_some verts y st hc, hW, hD]
    norm_num [ramanujanEllipse_zero]

/-! ## Ellipse-formula algebra -/

lemma widthCm_nonneg {verts : Mesh} {y th : ℚ}
    (h : sliceVerts verts y th ≠ []) : 0 ≤ widthCm verts y th := by
  have hne : xs (sliceVerts verts y th) ≠ [] := by
    simpa [xs] using h
  have := listMin_le_listMax hne
  simp only [widthCm]
  nlinarith

lemma depthCm_nonneg {verts : Mesh} {y th : ℚ}
    (h : sliceVerts verts y th ≠ []) : 0 ≤ depthCm verts y th := by
  have hne : zs (sliceVerts verts y th) ≠ [] := by
    simpa [zs] using h
  have := listMin_le_listMax hne
  simp only [depthCm]
  nlinarith

/-- For nonnegative semi-axes, the Ramanujan closed form dominates the
simple sum-of-axes form, with equality exactly on circles, because
`4(a+b)^2 - (3a+b)(a+3b) = (a-b)^2`. -/
lemma simpleEllipse_le_ramanujanEllipse (a b : ℚ) (ha : 0 ≤ a) (hb : 0 ≤ b) :
    simpleEllipse a b ≤ ramanujanEllipse a b ∧
      (simpleEllipse a b = ramanujanEllipse a b ↔ a = b) := by
  have hA : (0:ℝ) ≤ (a:ℝ) := by exact_mod_cast ha
  have hB : (0:ℝ) ≤ (b:ℝ) := by exact_mod_cast hb
  have hu : (0:ℝ) ≤ (3*(a:ℝ)+(b:ℝ)) * ((a:ℝ)+3*(b:ℝ)) := by nlinarith
  have hs2 : (0:ℝ) ≤ 2*((a:ℝ)+(b:ℝ)) := by nlinarith
  have hsq : Real.sqrt ((3*(a:ℝ)+(b:ℝ)) * ((a:ℝ)+3*(b:ℝ))) ≤ 2*((a:ℝ)+(b:ℝ)) := by
    calc Real.sqrt ((3*(a:ℝ)+(b:ℝ)) * ((a:ℝ)+3*(b:ℝ)))
        ≤ Real.sqrt ((2*((a:ℝ)+(b:ℝ)))^2) := Real.sqrt_le_sqrt (by nlinarith [sq_nonneg ((a:ℝ) - (b:ℝ))])
      _ = 2*((a:ℝ)+(b:ℝ)) := Real.sqrt_sq hs2
  have hcast : ramanujanEllipse a b
      = Real.pi * (3*((a:ℝ)+(b:ℝ)) - Real.sqrt ((3*(a:ℝ)+(b:ℝ)) * ((a:ℝ)+3*(b:ℝ)))) := by
    unfold ramanujanEllipse
    push_cast
    ring_nf
  have hcast2 : simpleEllipse a b = Real.pi * ((a:ℝ)+(b:ℝ)) := by
    unfold simpleEllipse
    push_cast
    ring
  constructor
  · rw [hcast, hcast2]
    apply mul_le_mul_of_nonneg_left _ Real.pi_pos.le
    linarith
  · constructor
    · intro he
      rw [hcast, hcast2] at he
      have h1 : ((a:ℝ)+(b:ℝ))
          = 3*((a:ℝ)+(b:ℝ)) - Real.sqrt ((3*(a:ℝ)+(b:ℝ)) * ((a:ℝ)+3*(b:ℝ))) :=
        mul_left_cancel₀ Real.pi_ne_zero he
      have h2 : Real.sqrt ((3*(a:ℝ)+(b:ℝ)) * ((a:ℝ)+3*(b:ℝ))) = 2*((a:ℝ)+(b:ℝ)) := by
        linarith
      have h3 : (3*(a:ℝ)+(b:ℝ)) * ((a:ℝ)+3*(b:ℝ)) = (2*((a:ℝ)+(b:ℝ)))^2 := by
        have hss := Real.sq_sqrt hu
        rw [h2] at hss
        linarith
      have h4 : ((a:ℝ)-(b:ℝ))^2 = 0 := by nlinarith
      have h5 : (a:ℝ) = (b:ℝ) := by
        have := sq_eq_zero_iff.mp h4
        linarith
      exact_mod_cast h5
    · intro he
      subst he
      rw [hcast, hcast2]
      have : Real.sqrt ((3*(a:ℝ)+(a:ℝ)) * ((a:ℝ)+3*(a:ℝ))) = 4*(a:ℝ) := by
        rw [show (3*(a:ℝ)+(a:ℝ)) * ((a:ℝ)+3*(a:ℝ)) = (4*(a:ℝ))^2 by ring,
           Real.sqrt_sq (by nlinarith)]
      rw [this]
      ring

/-! ## Concrete meshes used as witnesses and counterexamples -/

/-- Ten vertices at evenly spread heights on the y axis: no search window
ever collects more than 10 slice vertices, and no estimator slice reaches
10 vertices, so every landmark falls back and every estimator returns
`None`. -/
def meshTen : Mesh := (List.range 10).map (fun (k : ℕ) => ⟨0, (k : ℚ)/9, 0⟩)

lemma meshTen_length : meshTen.length = 10 := by
  unfold meshTen
  rw [List.length_map, List.length_range]

/-- Ten slice vertices spanning a 0.4 m × 0.24 m bounding box at height 0
(semi-axes 20 cm × 12 cm after the `* 100` conversion), plus two far-away
vertices that set the mesh height range to 2. -/
def ellipseSliceMesh : Mesh :=
  (List.range 10).map (fun (k : ℕ) => ⟨2*(k:ℚ)/45, 0, 2*(k:ℚ)/75⟩) ++
    [⟨0, 1, 0⟩, ⟨0, -1, 0⟩]

/-- Ten coincident slice vertices at height 0 plus two far-away vertices. -/
def coincidentMesh : Mesh :=
  List.replicate 10 ⟨5, 0, 7⟩ ++ [⟨5, 1, 7⟩, ⟨5, -1, 7⟩]

/-- Twelve vertices with identical x at height 0.4 (every hip-window slice
containing them is valid but has width 0) plus extremes fixing the height
range to `[0, 1]`. -/
def tieMesh : Mesh :=
  (List.range 12).map (fun (k : ℕ) => ⟨0, 2/5, (k:ℚ)/10⟩) ++ [⟨0, 0, 0⟩, ⟨0, 1, 0⟩]

/-- A thin, strictly convex, diagonally elongated cross-section: ten
points in convex position hugging the diagonal of a 1250 × 1000 bounding
box, plus two far-away vertices fixing the height range. -/
def sliverPts : List (ℚ × ℚ) :=
  [(0,0),(250,216),(500,424),(750,624),(1000,816),(1250,1000),
   (1000,784),(750,576),(500,376),(250,184)]

/-- The sliver cross-section embedded as a slice at height 0. -/
def sliverMesh : Mesh :=
  sliverPts.map (fun p => ⟨p.1, 0, p.2⟩) ++ [⟨0, 1, 0⟩, ⟨0, -1, 0⟩]

/-- A slice containing the four corners of its bounding box (plus interior
points): its hull is exactly the bounding rectangle. -/
def rectMesh : Mesh :=
  [⟨0,0,0⟩, ⟨4,0,0⟩, ⟨4,0,2⟩, ⟨0,0,2⟩, ⟨1,0,1⟩, ⟨2,0,1⟩,
   ⟨3,0,1⟩, ⟨1/2,0,1⟩, ⟨3/2,0,1⟩, ⟨5/2,0,1⟩] ++ [⟨0, 1, 0⟩, ⟨0, -1, 0⟩]

/-- A mesh whose height-axis extent is one nanometre-scale unit: raw
height is approximately zero but not exactly zero. -/
def flatMesh : Mesh := [⟨0, 0, 0⟩, ⟨0, 1/1000000000, 0⟩]

/-! ## Claim C4: degenerate-mesh calibration -/

/-- C4 (counterexample): a mesh whose raw height extent is one billionth of
a unit (approximately zero) does not abort: the code computes a huge scale
factor and the pipeline proceeds to emit a measurement record.  No
`DegenerateMeshError` exists anywhere in the source. -/
theorem C4_counterexample :
    yRange flatMesh = 1/1000000000 ∧
    scaleFactorOf flatMesh 180 = 1800000000 ∧
    ("height_cm", ((180:ℚ) : ℝ)) ∈ extractCore flatMesh 180 := by
  refine ⟨?_, ?_, ?_⟩
  · norm_num [yRange, ys, flatMesh, listMax, listMin, max_def, min_def]
  · norm_num [scaleFactorOf, yRange, ys, flatMesh, listMax, listMin, max_def, min_def]
  · simp [extractCore]

/-- C4 (amended): calibration performs no degeneracy check: for every mesh
(however flat) and every requested height, the pipeline simply computes
`scale_factor = height / (raw_extent * 100)` and proceeds to produce a
measurement record containing `height_cm`. -/
theorem C4_no_degeneracy_check (verts : Mesh) (h : ℚ) :
    ("height_cm", (h : ℝ)) ∈ extractCore verts h := by
  simp [extractCore]

/-! ## Claim C6: scale linearity -/

/-- C6: for a mesh with positive raw height extent and a positive target
height, rescaling by the computed scale factor yields a mesh whose
re-measured height-axis extent, converted to centimeters, is exactly the
target height. -/
theorem C6_scale_linearity (verts : Mesh) (H : ℚ)
    (hext : 0 < yRange verts) (hH : 0 < H) :
    yRange (scaleVerts verts (scaleFactorOf verts H)) * 100 = H := by
  have hk : 0 ≤ scaleFactorOf verts H := by
    unfold scaleFactorOf
    exact div_nonneg hH.le (by positivity)
  have hys : ys (scaleVerts verts (scaleFactorOf verts H))
      = (ys verts).map (fun q => q * scaleFactorOf verts H) := by
    simp [ys, scaleVerts, List.map_map, Function.comp]
  have hrange : yRange (scaleVerts verts (scaleFactorOf verts H))
      = yRange verts * scaleFactorOf verts H := by
    rw [yRange, hys, listMax_map_mul_right _ hk, listMin_map_mul_right _ hk, yRange]
    ring
  rw [hrange]
  unfold scaleFactorOf
  field_simp
  ring

/-- C6 (witness): instantiated on the two-vertex mesh of extent `1e-9`
calibrated to 180 cm. -/
theorem C6_scale_linearity_witness :
    0 < yRange flatMesh ∧ 0 < (180:ℚ) ∧
    yRange (scaleVerts flatMesh (scaleFactorOf flatMesh 180)) * 100 = 180 := by
  have h1 : 0 < yRange flatMesh := by
    norm_num [yRange, ys, flatMesh, listMax, listMin, max_def, min_def]
  exact ⟨h1, by norm_num, C6_scale_linearity flatMesh 180 h1 (by norm_num)⟩

/-! ## Claim C10: Ramanujan vs simple ellipse -/

/-- C10: on any slice passing the 10-vertex check, the Ramanujan estimate
(method 3) dominates the simple-ellipse estimate (method 2), with equality
exactly when the bounding-box width equals the depth. -/
theorem C10_ramanujan_dominates (verts : Mesh) (y st : ℚ)
    (h : ¬ (sliceVerts verts y (yRange verts * st)).length < 10) :
    ∃ c2 c3, method2 verts y st = some c2 ∧ method3 verts y st = some c3 ∧
      c2 ≤ c3 ∧
      (c2 = c3 ↔
        widthCm verts y (yRange verts * st) = depthCm verts y (yRange verts * st)) := by
  have hne : sliceVerts verts y (yRange verts * st) ≠ [] := by
    intro hnil
    rw [hnil] at h
    simp at h
  have ha : 0 ≤ widthCm verts y (yRange verts * st) / 2 := by
    linarith [widthCm_nonneg hne]
  have hb : 0 ≤ depthCm verts y (yRange verts * st) / 2 := by
    linarith [depthCm_nonneg hne]
  obtain ⟨hle, hiff⟩ := simpleEllipse_le_ramanujanEllipse _ _ ha hb
  refine ⟨_, _, method2_eq_some verts y st h, method3_eq_some verts y st h, hle, ?_⟩
  rw [hiff]
  constructor
  · intro h2; linarith
  · intro h2; rw [h2]

/-- C10 (witness): instantiated on the 20 cm × 12 cm slice. -/
theorem C10_ramanujan_dominates_witness :
    (¬ (sliceVerts ellipseSliceMesh 0 (yRange ellipseSliceMesh * (3/100))).length < 10) ∧
    (∃ c2 c3, method2 ellipseSliceMesh 0 (3/100) = some c2 ∧
      method3 ellipseSliceMesh 0 (3/100) = some c3 ∧ c2 ≤ c3 ∧
      (c2 = c3 ↔ widthCm ellipseSliceMesh 0 (yRange ellipseSliceMesh * (3/100))
          = depthCm ellipseSliceMesh 0 (yRange ellipseSliceMesh * (3/100)))) := by
  have hcnt : ¬ (sliceVerts ellipseSliceMesh 0 (yRange ellipseSliceMesh * (3/100))).length < 10 := by
    have hr : List.range 10 = [0,1,2,3,4,5,6,7,8,9] := by decide
    norm_num [sliceVerts, ys, ellipseSliceMesh, hr, listMax, listMin,
      max_def, min_def, yRange, List.filter_cons, abs_lt]
  exact ⟨hcnt, C10_ramanujan_dominates ellipseSliceMesh 0 (3/100) hcnt⟩

/-! ## Claim C2: coincident slice points -/

/-- C2 (counterexample): a slice of ten coincident points passes the
minimum-vertex check and makes every estimator return `0.0` - a zero
circumference, not `null`. -/
theorem C2_counterexample :
    (¬ (sliceVerts coincidentMesh 0 (yRange coincidentMesh * (2/100))).length < 10) ∧
    (∀ v ∈ sliceVerts coincidentMesh 0 (yRange coincidentMesh * (2/100)),
      v.x = 5 ∧ v.z = 7) ∧
    method1 coincidentMesh 0 (2/100) = some 0 ∧
    method2 coincidentMesh 0 (2/100) = some 0 ∧
    method2 coincidentMesh 0 (2/100) ≠ none ∧
    method3 coincidentMesh 0 (2/100) = some 0 := by
  have hr : List.range 10 = [0,1,2,3,4,5,6,7,8,9] := by decide
  have hall : ∀ v ∈ coincidentMesh, v.x = 5 ∧ v.z = 7 := by
    intro v hv
    simp only [coincidentMesh, List.mem_append, List.mem_replicate, List.mem_cons,
      List.not_mem_nil, or_false] at hv
    rcases hv with ⟨-, rfl⟩ | rfl | rfl <;> exact ⟨rfl, rfl⟩
  have hx : ∀ v ∈ sliceVerts coincidentMesh 0 (yRange coincidentMesh * (2/100)), v.x = 5 :=
    fun v hv => (hall v (mem_of_mem_sliceVerts hv)).1
  have hz : ∀ v ∈ sliceVerts coincidentMesh 0 (yRange coincidentMesh * (2/100)), v.z = 7 :=
    fun v hv => (hall v (mem_of_mem_sliceVerts hv)).2
  have hcnt : ¬ (sliceVerts coincidentMesh 0 (yRange coincidentMesh * (2/100))).length < 10 := by
    norm_num [sliceVerts, ys, coincidentMesh, List.replicate, listMax, listMin,
      max_def, min_def, yRange, List.filter_cons, abs_lt]
  obtain ⟨h1, h2, h3⟩ := methods_of_coincident coincidentMesh 0 (2/100) 5 7 hcnt hx hz
  exact ⟨hcnt, fun v hv => ⟨hx v hv, hz v hv⟩, h1, h2, by rw [h2]; simp, h3⟩

/-- C2 (amended): on a slice that passes the minimum-vertex check but whose
projected points all coincide, each of the three estimators returns the
zero circumference `0.0` (never `null`); no division by a width- or
depth-derived quantity occurs in any of the three formulas. -/
theorem C2_coincident_gives_zero (verts : Mesh) (y st cx cz : ℚ)
    (hc : ¬ (sliceVerts verts y (yRange verts * st)).length < 10)
    (hx : ∀ v ∈ sliceVerts verts y (yRange verts * st), v.x = cx)
    (hz : ∀ v ∈ sliceVerts verts y (yRange verts * st), v.z = cz) :
    method1 verts y st = some 0 ∧ method2 verts y st = some 0 ∧
      method3 verts y st = some 0 :=
  methods_of_coincident verts y st cx cz hc hx hz

/-- C2 (witness): the amended statement instantiated on the concrete
coincident slice. -/
theorem C2_coincident_gives_zero_witness :
    method1 coincidentMesh 0 (2/100) = some 0 ∧
    method2 coincidentMesh 0 (2/100) = some 0 ∧
    method3 coincidentMesh 0 (2/100) = some 0 := by
  have hr : List.range 10 = [0,1,2,3,4,5,6,7,8,9] := by decide
  have hall : ∀ v ∈ coincidentMesh, v.x = 5 ∧ v.z = 7 := by
    intro v hv
    simp only [coincidentMesh, List.mem_append, List.mem_replicate, List.mem_cons,
      List.not_mem_nil, or_false] at hv
    rcases hv with ⟨-, rfl⟩ | rfl | rfl <;> exact ⟨rfl, rfl⟩
  have hcnt : ¬ (sliceVerts coincidentMesh 0 (yRange coincidentMesh * (2/100))).length < 10 := by
    norm_num [sliceVerts, ys, coincidentMesh, List.replicate, listMax, listMin,
      max_def, min_def, yRange, List.filter_cons, abs_lt]
  exact C2_coincident_gives_zero coincidentMesh 0 (2/100) 5 7 hcnt
    (fun v hv => (hall v (mem_of_mem_sliceVerts hv)).1)
    (fun v hv => (hall v (mem_of_mem_sliceVerts hv)).2)

/-! ## Claim C3: landmark fallback heights -/

/-- C3 (counterexample): on the ten-vertex mesh every hip-window sample is
invalid, the locator raises nothing, and the hip landmark is
`y_min + 0.45 * y_range` - not the midpoint `0.30 + (0.55 - 0.30)/2 = 0.425`
of the hip search window. -/
theorem C3_counterexample :
    (∀ y ∈ linspace
        (listMin (ys meshTen) + (listMax (ys meshTen) - listMin (ys meshTen)) * (3/10))
        (listMin (ys meshTen) + (listMax (ys meshTen) - listMin (ys meshTen)) * (55/100)) 40,
        ¬ 10 < sliceCount meshTen y ((listMax (ys meshTen) - listMin (ys meshTen)) * (4/100))) ∧
    (findAdaptiveLandmarks meshTen).hip = 9/20 ∧
    (findAdaptiveLandmarks meshTen).hip ≠
      listMin (ys meshTen) + (listMax (ys meshTen) - listMin (ys meshTen))
        * (3/10 + (55/100 - 3/10)/2) := by
  have hr : List.range 10 = [0,1,2,3,4,5,6,7,8,9] := by decide
  have hlen : meshTen.length ≤ 10 := le_of_eq meshTen_length
  have hno : ∀ y ∈ linspace
      (listMin (ys meshTen) + (listMax (ys meshTen) - listMin (ys meshTen)) * (3/10))
      (listMin (ys meshTen) + (listMax (ys meshTen) - listMin (ys meshTen)) * (55/100)) 40,
      ¬ 10 < sliceCount meshTen y ((listMax (ys meshTen) - listMin (ys meshTen)) * (4/100)) := by
    intro y _
    have h1 := sliceCount_le_length meshTen y
      ((listMax (ys meshTen) - listMin (ys meshTen)) * (4/100))
    rw [meshTen_length] at h1
    omega
  have hhip := (findAdaptiveLandmarks_of_small meshTen hlen).2.2.1
  have hmin : listMin (ys meshTen) = 0 := by
    norm_num [ys, meshTen, hr, listMin, min_def]
  have hmax : listMax (ys meshTen) = 1 := by
    norm_num [ys, meshTen, hr, listMax, max_def]
  refine ⟨hno, ?_, ?_⟩
  · rw [hhip, hmin, hmax]; norm_num
  · rw [hhip, hmin, hmax]; norm_num

/-- C3 (amended): if every sampled hip-window slice is invalid, the locator
(raising nothing - it is a total function) assigns the hip landmark the
fixed height `y_min + 0.45 * y_range`, which differs from the midpoint
`0.425` of the `[0.30, 0.55]` hip window; no `fallback` flag exists in the
landmark record.  (For waist, chest and neck the hard-coded fallbacks
`0.55`, `0.80`, `0.90` do coincide with their window midpoints.) -/
theorem C3_hip_fallback (verts : Mesh)
    (h : ∀ y ∈ linspace
        (listMin (ys verts) + (listMax (ys verts) - listMin (ys verts)) * (3/10))
        (listMin (ys verts) + (listMax (ys verts) - listMin (ys verts)) * (55/100)) 40,
        ¬ 10 < sliceCount verts y ((listMax (ys verts) - listMin (ys verts)) * (4/100))) :
    (findAdaptiveLandmarks verts).hip
        = listMin (ys verts) + (listMax (ys verts) - listMin (ys verts)) * (45/100) ∧
    (45/100 : ℚ) ≠ 3/10 + (55/100 - 3/10)/2 :=
  ⟨hip_fallback_of_no_valid verts h, by norm_num⟩

/-- C3 (witness): the amended statement instantiated on the ten-vertex
mesh. -/
theorem C3_hip_fallback_witness :
    (findAdaptiveLandmarks meshTen).hip
        = listMin (ys meshTen) + (listMax (ys meshTen) - listMin (ys meshTen)) * (45/100) ∧
    (45/100 : ℚ) ≠ 3/10 + (55/100 - 3/10)/2 := by
  refine C3_hip_fallback meshTen ?_
  intro y _
  have h1 := sliceCount_le_length meshTen y
    ((listMax (ys meshTen) - listMin (ys meshTen)) * (4/100))
  rw [meshTen_length] at h1
  omega

/-! ## Claim C8: the concrete Ramanujan scenario -/

/-- C8 (counterexample): on the slice with bounding semi-axes `a = 20 cm`,
`b = 12 cm`, method 3 returns `pi * (96 - sqrt((3*20+12)*(20+3*12)))`
= `pi * (96 - sqrt 4032)`, which differs from the spec's hand-computed
`pi * (3*32 - sqrt(68*44))` and exceeds 101.6 cm, hence is not within
floating tolerance of the claimed 100.6 cm. -/
theorem C8_counterexample :
    method3 ellipseSliceMesh 0 (3/100) = some (ramanujanEllipse 20 12) ∧
    ramanujanEllipse 20 12 = Real.pi * (96 - Real.sqrt 4032) ∧
    Real.pi * (96 - Real.sqrt 4032) ≠ Real.pi * (3*32 - Real.sqrt (68*44)) ∧
    (101.6 : ℝ) < Real.pi * (96 - Real.sqrt 4032) := by
  have hr : List.range 10 = [0,1,2,3,4,5,6,7,8,9] := by decide
  have hcnt : ¬ (sliceVerts ellipseSliceMesh 0 (yRange ellipseSliceMesh * (3/100))).length < 10 := by
    norm_num [sliceVerts, ys, ellipseSliceMesh, hr, listMax, listMin,
      max_def, min_def, yRange, List.filter_cons, abs_lt]
  have hW : widthCm ellipseSliceMesh 0 (yRange ellipseSliceMesh * (3/100)) = 40 := by
    norm_num [widthCm, sliceVerts, ys, xs, ellipseSliceMesh, hr, listMax, listMin,
      max_def, min_def, yRange, List.filter_cons, abs_lt]
  have hD : depthCm ellipseSliceMesh 0 (yRange ellipseSliceMesh * (3/100)) = 24 := by
    norm_num [depthCm, sliceVerts, ys, zs, ellipseSliceMesh, hr, listMax, listMin,
      max_def, min_def, yRange, List.filter_cons, abs_lt]
  have hm3 : method3 ellipseSliceMesh 0 (3/100) = some (ramanujanEllipse 20 12) := by
    rw [method3_eq_some ellipseSliceMesh 0 (3/100) hcnt, hW, hD]
    norm_num
  have hval : ramanujanEllipse 20 12 = Real.pi * (96 - Real.sqrt 4032) := by
    unfold ramanujanEllipse
    norm_num
  have hsqle : Real.sqrt 4032 ≤ 63.5 := by
    rw [show (63.5:ℝ) = Real.sqrt (63.5^2) from (Real.sqrt_sq (by norm_num)).symm]
    exact Real.sqrt_le_sqrt (by norm_num)
  have hlow : (101.6 : ℝ) < Real.pi * (96 - Real.sqrt 4032) := by
    have h325 : (32.5:ℝ) ≤ 96 - Real.sqrt 4032 := by linarith
    calc (101.6 : ℝ) < 3.141592 * 32.5 := by norm_num
      _ ≤ Real.pi * 32.5 := by nlinarith [Real.pi_gt_d6]
      _ ≤ Real.pi * (96 - Real.sqrt 4032) :=
          mul_le_mul_of_nonneg_left h325 Real.pi_pos.le
  refine ⟨hm3, hval, ?_, hlow⟩
  intro heq
  have h1 : (96 : ℝ) - Real.sqrt 4032 = 3*32 - Real.sqrt (68*44) :=
    mul_left_cancel₀ Real.pi_ne_zero heq
  have h2 : Real.sqrt 4032 = Real.sqrt 2992 := by
    rw [show ((68:ℝ)*44) = 2992 by norm_num] at h1
    linarith
  have h4 := Real.sq_sqrt (show (0:ℝ) ≤ 4032 by norm_num)
  have h5 := Real.sq_sqrt (show (0:ℝ) ≤ 2992 by norm_num)
  rw [h2] at h4
  rw [h5] at h4
  norm_num at h4

/-- C8 (amended): the 20 cm × 12 cm slice yields, via the code's Ramanujan
formula, `pi * (3*(20+12) - sqrt((3*20+12)*(20+3*12))) = pi * (96 - sqrt 4032)
≈ 102.1 cm` (between 102 and 102.2), not the spec's `pi*(3*32 - sqrt(68*44))
≈ 100.6`. -/
theorem C8_ramanujan_value :
    method3 ellipseSliceMesh 0 (3/100)
      = some (Real.pi * (3*(20+12) - Real.sqrt ((3*20+12)*(20+3*12)))) ∧
    (102 : ℝ) < Real.pi * (3*(20+12) - Real.sqrt ((3*20+12)*(20+3*12))) ∧
    Real.pi * (3*(20+12) - Real.sqrt ((3*20+12)*(20+3*12))) < 102.2 := by
  have hr : List.range 10 = [0,1,2,3,4,5,6,7,8,9] := by decide
  have hcnt : ¬ (sliceVerts ellipseSliceMesh 0 (yRange ellipseSliceMesh * (3/100))).length < 10 := by
    norm_num [sliceVerts, ys, ellipseSliceMesh, hr, listMax, listMin,
      max_def, min_def, yRange, List.filter_cons, abs_lt]
  have hW : widthCm ellipseSliceMesh 0 (yRange ellipseSliceMesh * (3/100)) = 40 := by
    norm_num [widthCm, sliceVerts, ys, xs, ellipseSliceMesh, hr, listMax, listMin,
      max_def, min_def, yRange, List.filter_cons, abs_lt]
  have hD : depthCm ellipseSliceMesh 0 (yRange ellipseSliceMesh * (3/100)) = 24 := by
    norm_num [depthCm, sliceVerts, ys, zs, ellipseSliceMesh, hr, listMax, listMin,
      max_def, min_def, yRange, List.filter_cons, abs_lt]
  have hform : (3*((20:ℝ)+12) - Real.sqrt ((3*20+12)*(20+3*12)))
      = 96 - Real.sqrt 4032 := by norm_num
  have hsqle : Real.sqrt 4032 ≤ 63.5 := by
    rw [show (63.5:ℝ) = Real.sqrt (63.5^2) from (Real.sqrt_sq (by norm_num)).symm]
    exact Real.sqrt_le_sqrt (by norm_num)
  have hsqge : (63.49 : ℝ) ≤ Real.sqrt 4032 := by
    rw [show (63.49:ℝ) = Real.sqrt (63.49^2) from (Real.sqrt_sq (by norm_num)).symm]
    exact Real.sqrt_le_sqrt (by norm_num)
  refine ⟨?_, ?_, ?_⟩
  · rw [method3_eq_some ellipseSliceMesh 0 (3/100) hcnt, hW, hD]
    unfold ramanujanEllipse
    norm_num
  · rw [hform]
    have h325 : (32.5:ℝ) ≤ 96 - Real.sqrt 4032 := by linarith
    calc (102 : ℝ) < 3.141592 * 32.5 := by norm_num
      _ ≤ Real.pi * 32.5 := by nlinarith [Real.pi_gt_d6]
      _ ≤ Real.pi * (96 - Real.sqrt 4032) :=
          mul_le_mul_of_nonneg_left h325 Real.pi_pos.le
  · rw [hform]
    have h3251 : (96:ℝ) - Real.sqrt 4032 ≤ 32.51 := by linarith
    calc Real.pi * (96 - Real.sqrt 4032) ≤ Real.pi * 32.51 :=
          mul_le_mul_of_nonneg_left h3251 Real.pi_pos.le
      _ ≤ 3.141593 * 32.51 := by nlinarith [Real.pi_lt_d6]
      _ < 102.2 := by norm_num

/-! ## Claim C1: dropped measurements -/

lemma scaleVerts_one (verts : Mesh) : scaleVerts verts 1 = verts := by
  simp [scaleVerts]

lemma consIfTruthy_none (n : String) (rest : List (String × ℝ)) :
    consIfTruthy n none rest = rest := rfl

open Classical in
lemma consIfTruthy_some (n : String) (v : ℝ) (rest : List (String × ℝ)) :
    consIfTruthy n (some v) rest = if v = 0 then rest else (n, v) :: rest := rfl

lemma mem_map_fst_consIfTruthy {a n : String} {c : Option ℝ}
    {rest : List (String × ℝ)}
    (h : a ∈ (consIfTruthy n c rest).map Prod.fst) :
    (a = n ∧ c ≠ none) ∨ a ∈ rest.map Prod.fst := by
  cases c with
  | none => exact Or.inr h
  | some v =>
      rw [consIfTruthy_some] at h
      split at h
      · exact Or.inr h
      · rw [List.map_cons] at h
        rcases List.mem_cons.mp h with h1 | h1
        · exact Or.inl ⟨h1, by simp⟩
        · exact Or.inr h1

lemma not_mem_map_fst_consIfTruthy {a n : String} {c : Option ℝ}
    {rest : List (String × ℝ)}
    (h1 : a ≠ n ∨ c = none) (h2 : a ∉ rest.map Prod.fst) :
    a ∉ (consIfTruthy n c rest).map Prod.fst := by
  intro hmem
  rcases mem_map_fst_consIfTruthy hmem with ⟨rfl, hc⟩ | hmem
  · rcases h1 with h1 | h1
    · exact h1 rfl
    · exact hc h1
  · exact h2 hmem

lemma not_mem_map_fst_shoulder_tail {a : String} {cond : Prop} [Decidable cond]
    {v1 v2 v3 v4 v5 : ℝ}
    (h1 : a ≠ "shoulder_width_cm") (h2 : a ≠ "arm_span_cm") (h3 : a ≠ "inseam_cm")
    (h4 : a ≠ "torso_length_cm") (h5 : a ≠ "arm_length_cm") :
    a ∉ ((if cond then [("shoulder_width_cm", v1)] else []) ++
      [("arm_span_cm", v2), ("inseam_cm", v3),
       ("torso_length_cm", v4), ("arm_length_cm", v5)]).map Prod.fst := by
  by_cases hc : cond <;> simp [hc, h1, h2, h3, h4, h5]

/-- C1 (amended): the assembler silently drops a measurement whose
estimator is falsy: if an estimator returns `None`, the corresponding
measurement name is absent from the assembled record - there is no `null`
entry and no reason code. -/
theorem C1_null_estimates_absent (verts : Mesh) (h : ℚ) :
    (method3 (scaleVerts verts (scaleFactorOf verts h))
        ((findAdaptiveLandmarks (scaleVerts verts (scaleFactorOf verts h))).chest) (3/100) = none →
      "chest_circumference_cm" ∉ extractKeys verts h) ∧
    (method2 (scaleVerts verts (scaleFactorOf verts h))
        ((findAdaptiveLandmarks (scaleVerts verts (scaleFactorOf verts h))).waist) (1/100) = none →
      "waist_circumference_cm" ∉ extractKeys verts h) ∧
    (method1 (scaleVerts verts (scaleFactorOf verts h))
        ((findAdaptiveLandmarks (scaleVerts verts (scaleFactorOf verts h))).hip) (4/100) = none →
      "hip_circumference_cm" ∉ extractKeys verts h) ∧
    (method2 (scaleVerts verts (scaleFactorOf verts h))
        ((findAdaptiveLandmarks (scaleVerts verts (scaleFactorOf verts h))).neck) (2/100) = none →
      "neck_circumference_cm" ∉ extractKeys verts h) ∧
    (method1 (scaleVerts verts (scaleFactorOf verts h))
        ((findAdaptiveLandmarks (scaleVerts verts (scaleFactorOf verts h))).thigh) (3/100) = none →
      "thigh_circumference_cm" ∉ extractKeys verts h) := by
  refine ⟨?_, ?_, ?_, ?_, ?_⟩ <;> intro hnone hmem <;>
    simp only [extractKeys, extractCore, List.map_cons, List.mem_cons] at hmem <;>
    rw [hnone] at hmem <;>
    rw [consIfTruthy_none] at hmem
  · rcases hmem with h1 | hmem
    · exact absurd h1 (by decide)
    · refine not_mem_map_fst_consIfTruthy (Or.inl ?_)
        (not_mem_map_fst_consIfTruthy (Or.inl ?_)
          (not_mem_map_fst_consIfTruthy (Or.inl ?_)
            (not_mem_map_fst_consIfTruthy (Or.inl ?_)
              (not_mem_map_fst_shoulder_tail ?_ ?_ ?_ ?_ ?_)))) hmem <;> decide
  · rcases hmem with h1 | hmem
    · exact absurd h1 (by decide)
    · refine not_mem_map_fst_consIfTruthy (Or.inl ?_)
        (not_mem_map_fst_consIfTruthy (Or.inl ?_)
          (not_mem_map_fst_consIfTruthy (Or.inl ?_)
            (not_mem_map_fst_consIfTruthy (Or.inl ?_)
              (not_mem_map_fst_shoulder_tail ?_ ?_ ?_ ?_ ?_)))) hmem <;> decide
  · rcases hmem with h1 | hmem
    · exact absurd h1 (by decide)
    · refine not_mem_map_fst_consIfTruthy (Or.inl ?_)
        (not_mem_map_fst_consIfTruthy (Or.inl ?_)
          (not_mem_map_fst_consIfTruthy (Or.inl ?_)
            (not_mem_map_fst_consIfTruthy (Or.inl ?_)
              (not_mem_map_fst_shoulder_tail ?_ ?_ ?_ ?_ ?_)))) hmem <;> decide
  · rcases hmem with h1 | hmem
    · exact absurd h1 (by decide)
    · refine not_mem_map_fst_consIfTruthy (Or.inl ?_)
        (not_mem_map_fst_consIfTruthy (Or.inl ?_)
          (not_mem_map_fst_consIfTruthy (Or.inl ?_)
            (not_mem_map_fst_consIfTruthy (Or.inl ?_)
              (not_mem_map_fst_shoulder_tail ?_ ?_ ?_ ?_ ?_)))) hmem <;> decide
  · rcases hmem with h1 | hmem
    · exact absurd h1 (by decide)
    · refine not_mem_map_fst_consIfTruthy (Or.inl ?_)
        (not_mem_map_fst_consIfTruthy (Or.inl ?_)
          (not_mem_map_fst_consIfTruthy (Or.inl ?_)
            (not_mem_map_fst_consIfTruthy (Or.inl ?_)
              (not_mem_map_fst_shoulder_tail ?_ ?_ ?_ ?_ ?_)))) hmem <;> decide

/-- C1 (counterexample): on the ten-vertex mesh the chest slice has a
single vertex, so the chest estimator returns `None` - and the assembled
record contains no `chest_circumference_cm` entry at all (no `null` value,
no reason code). -/
theorem C1_counterexample :
    method3 (scaleVerts meshTen (scaleFactorOf meshTen 100))
        ((findAdaptiveLandmarks (scaleVerts meshTen (scaleFactorOf meshTen 100))).chest)
        (3/100) = none ∧
    "chest_circumference_cm" ∉ extractKeys meshTen 100 ∧
    "waist_circumference_cm" ∉ extractKeys meshTen 100 := by
  have hr : List.range 10 = [0,1,2,3,4,5,6,7,8,9] := by decide
  have hsf : scaleFactorOf meshTen 100 = 1 := by
    norm_num [scaleFactorOf, yRange, ys, meshTen, hr, listMax, listMin, max_def, min_def]
  have hsc : scaleVerts meshTen (scaleFactorOf meshTen 100) = meshTen := by
    rw [hsf]
    exact scaleVerts_one meshTen
  have hmin : listMin (ys meshTen) = 0 := by
    norm_num [ys, meshTen, hr, listMin, min_def]
  have hmax : listMax (ys meshTen) = 1 := by
    norm_num [ys, meshTen, hr, listMax, max_def]
  have hsmall := findAdaptiveLandmarks_of_small meshTen (le_of_eq meshTen_length)
  have hchest : (findAdaptiveLandmarks meshTen).chest = 4/5 := by
    rw [hsmall.2.1, hmin, hmax]
    norm_num
  have hwaist : (findAdaptiveLandmarks meshTen).waist = 11/20 := by
    rw [hsmall.1, hmin, hmax]
    norm_num
  have hnone : method3 meshTen ((findAdaptiveLandmarks meshTen).chest) (3/100) = none := by
    rw [hchest, method3_eq_none_iff]
    norm_num [sliceVerts, ys, meshTen, hr, listMax, listMin, max_def, min_def,
      yRange, List.filter_cons, abs_lt]
  have hnoneW : method2 meshTen ((findAdaptiveLandmarks meshTen).waist) (1/100) = none := by
    rw [hwaist, method2_eq_none_iff]
    norm_num [sliceVerts, ys, meshTen, hr, listMax, listMin, max_def, min_def,
      yRange, List.filter_cons, abs_lt]
  refine ⟨by rw [hsc]; exact hnone, ?_, ?_⟩
  · intro hmem
    simp only [extractKeys, extractCore, List.map_cons, List.mem_cons] at hmem
    rw [hsc, hnone, consIfTruthy_none] at hmem
    rcases hmem with h1 | hmem
    · exact absurd h1 (by decide)
    · refine not_mem_map_fst_consIfTruthy (Or.inl ?_)
        (not_mem_map_fst_consIfTruthy (Or.inl ?_)
          (not_mem_map_fst_consIfTruthy (Or.inl ?_)
            (not_mem_map_fst_consIfTruthy (Or.inl ?_)
              (not_mem_map_fst_shoulder_tail ?_ ?_ ?_ ?_ ?_)))) hmem <;> decide
  · intro hmem
    simp only [extractKeys, extractCore, List.map_cons, List.mem_cons] at hmem
    rw [hsc, hnoneW, consIfTruthy_none] at hmem
    rcases hmem with h1 | hmem
    · exact absurd h1 (by decide)
    · refine not_mem_map_fst_consIfTruthy (Or.inl ?_)
        (not_mem_map_fst_consIfTruthy (Or.inl ?_)
          (not_mem_map_fst_consIfTruthy (Or.inl ?_)
            (not_mem_map_fst_consIfTruthy (Or.inl ?_)
              (not_mem_map_fst_shoulder_tail ?_ ?_ ?_ ?_ ?_)))) hmem <;> decide

/-- C1 (witness): the amended statement applied to the ten-vertex mesh,
whose chest estimator concretely returns `None`. -/
theorem C1_null_estimates_absent_witness :
    (method3 (scaleVerts meshTen (scaleFactorOf meshTen 100))
        ((findAdaptiveLandmarks (scaleVerts meshTen (scaleFactorOf meshTen 100))).chest)
        (3/100) = none) ∧
    "chest_circumference_cm" ∉ extractKeys meshTen 100 := by
  have hr : List.range 10 = [0,1,2,3,4,5,6,7,8,9] := by decide
  have hsf : scaleFactorOf meshTen 100 = 1 := by
    norm_num [scaleFactorOf, yRange, ys, meshTen, hr, listMax, listMin, max_def, min_def]
  have hsc : scaleVerts meshTen (scaleFactorOf meshTen 100) = meshTen := by
    rw [hsf]
    exact scaleVerts_one meshTen
  have hmin : listMin (ys meshTen) = 0 := by
    norm_num [ys, meshTen, hr, listMin, min_def]
  have hmax : listMax (ys meshTen) = 1 := by
    norm_num [ys, meshTen, hr, listMax, max_def]
  have hchest : (findAdaptiveLandmarks meshTen).chest = 4/5 := by
    rw [(findAdaptiveLandmarks_of_small meshTen (le_of_eq meshTen_length)).2.1, hmin, hmax]
    norm_num
  have hnone : method3 (scaleVerts meshTen (scaleFactorOf meshTen 100))
      ((findAdaptiveLandmarks (scaleVerts meshTen (scaleFactorOf meshTen 100))).chest)
      (3/100) = none := by
    rw [hsc, hchest, method3_eq_none_iff]
    norm_num [sliceVerts, ys, meshTen, hr, listMax, listMin, max_def, min_def,
      yRange, List.filter_cons, abs_lt]
  exact ⟨hnone, (C1_null_estimates_absent meshTen 100).1 hnone⟩

/-! ## Claim C9: tie-breaking in the landmark searches -/

lemma sliceWidthX_of_const_x {verts : Mesh} {c y th : ℚ}
    (h : ∀ v ∈ verts, v.x = c) : sliceWidthX verts y th = 0 := by
  have hxs : ∀ q ∈ xs (sliceVerts verts y th), q = c := by
    intro q hq
    rcases List.mem_map.mp hq with ⟨v, hv, rfl⟩
    exact h v (mem_of_mem_sliceVerts hv)
  simp [sliceWidthX, listMax_sub_listMin_const hxs]

lemma hip_of_search_none (verts : Mesh)
    (h : swGo verts ((listMax (ys verts) - listMin (ys verts)) * (4/100)) 0 none
        (linspace (listMin (ys verts) + (listMax (ys verts) - listMin (ys verts)) * (3/10))
          (listMin (ys verts) + (listMax (ys verts) - listMin (ys verts)) * (55/100)) 40)
        = none) :
    (findAdaptiveLandmarks verts).hip
      = listMin (ys verts) + (listMax (ys verts) - listMin (ys verts)) * (45/100) := by
  simp only [findAdaptiveLandmarks]
  rw [h]
  simp [fromTruthy]

/-- The twelve clustered vertices of `tieMesh` share `x = 0`. -/
lemma tieMesh_const_x : ∀ v ∈ tieMesh, v.x = 0 := by
  intro v hv
  have hr : List.range 12 = [0,1,2,3,4,5,6,7,8,9,10,11] := by decide
  simp only [tieMesh, hr, List.map_cons, List.map_nil, List.mem_append,
    List.mem_cons, List.not_mem_nil, or_false] at hv
  rcases hv with (h|h|h|h|h|h|h|h|h|h|h|h)|h|h <;> subst h <;> rfl

/-- C9 (counterexample): on `tieMesh`, several hip-window samples are valid
and all attain the optimal (maximal) slice width, namely 0 - yet the
search selects none of them: the hip landmark is the hard-coded fallback
`0.45`, which is not a sample of the scan at all. -/
theorem C9_counterexample :
    (∀ y ∈ linspace (3/10) (11/20) 40,
      sliceWidthX tieMesh y ((listMax (ys tieMesh) - listMin (ys tieMesh)) * (4/100)) = 0) ∧
    10 < sliceCount tieMesh (71/195)
      ((listMax (ys tieMesh) - listMin (ys tieMesh)) * (4/100)) ∧
    10 < sliceCount tieMesh (289/780)
      ((listMax (ys tieMesh) - listMin (ys tieMesh)) * (4/100)) ∧
    (71/195 : ℚ) ∈ linspace (3/10) (11/20) 40 ∧
    (289/780 : ℚ) ∈ linspace (3/10) (11/20) 40 ∧
    (findAdaptiveLandmarks tieMesh).hip = 9/20 ∧
    (9/20 : ℚ) ∉ linspace (3/10) (11/20) 40 := by
  have hr : List.range 12 = [0,1,2,3,4,5,6,7,8,9,10,11] := by decide
  have hr40 : List.range 40 = [0,1,2,3,4,5,6,7,8,9,10,11,12,13,14,15,16,17,18,19,
    20,21,22,23,24,25,26,27,28,29,30,31,32,33,34,35,36,37,38,39] := by decide
  have hmin : listMin (ys tieMesh) = 0 := by
    norm_num [ys, tieMesh, hr, listMin, min_def]
  have hmax : listMax (ys tieMesh) = 1 := by
    norm_num [ys, tieMesh, hr, listMax, max_def]
  have hwidth : ∀ (y th : ℚ), sliceWidthX tieMesh y th = 0 :=
    fun y th => sliceWidthX_of_const_x tieMesh_const_x
  have hhip : (findAdaptiveLandmarks tieMesh).hip = 9/20 := by
    have hnone := hip_of_search_none tieMesh
      (swGo_of_zero_width tieMesh _ _ (fun y _ => hwidth y _) none)
    rw [hnone, hmin, hmax]
    norm_num
  refine ⟨fun y _ => hwidth y _, ?_, ?_, ?_, ?_, hhip, ?_⟩
  · rw [hmin, hmax]
    norm_num [sliceCount, sliceVerts, tieMesh, hr, List.filter_cons, abs_lt]
  · rw [hmin, hmax]
    norm_num [sliceCount, sliceVerts, tieMesh, hr, List.filter_cons, abs_lt]
  · refine List.mem_map.mpr ⟨10, ?_, ?_⟩
    · rw [hr40]; norm_num
    · norm_num
  · refine List.mem_map.mpr ⟨11, ?_, ?_⟩
    · rw [hr40]; norm_num
    · norm_num
  · intro hmem
    simp only [linspace, hr40, List.map_cons, List.map_nil, List.mem_cons,
      List.not_mem_nil, or_false] at hmem
    norm_num at hmem

/-- C9 (amended): whenever a narrowest- or widest-point search selects a
sample at all, it selects the earliest sample in scan order among the
valid samples attaining the optimal width (every valid earlier sample is
strictly worse, every valid sample is no better); a widest-point search
additionally requires the selected width to be strictly positive, and when
every valid slice has width 0 it selects no sample and the hard-coded
fallback height is used instead. -/
theorem C9_earliest_optimal (verts : Mesh) (th : ℚ) (samples : List ℚ) (y : ℚ) :
    (snGo verts th none none samples = some y →
      ∃ pre post, samples = pre ++ y :: post ∧ 10 < sliceCount verts y th ∧
        (∀ z ∈ pre, 10 < sliceCount verts z th →
          sliceWidthX verts y th < sliceWidthX verts z th) ∧
        (∀ z ∈ samples, 10 < sliceCount verts z th →
          sliceWidthX verts y th ≤ sliceWidthX verts z th)) ∧
    (swGo verts th 0 none samples = some y →
      ∃ pre post, samples = pre ++ y :: post ∧ 10 < sliceCount verts y th ∧
        0 < sliceWidthX verts y th ∧
        (∀ z ∈ pre, 10 < sliceCount verts z th →
          sliceWidthX verts z th < sliceWidthX verts y th) ∧
        (∀ z ∈ samples, 10 < sliceCount verts z th →
          sliceWidthX verts z th ≤ sliceWidthX verts y th)) := by
  constructor
  · intro h
    rcases snGo_some_spec verts th samples none none y h with ⟨hby, _⟩ |
      ⟨pre, post, hsplit, hv, _, hpre, hpost⟩
    · exact absurd hby (by simp)
    · refine ⟨pre, post, hsplit, hv, hpre, ?_⟩
      intro z hz hvz
      rw [hsplit] at hz
      rcases List.mem_append.mp hz with hz | hz
      · exact le_of_lt (hpre z hz hvz)
      · rcases List.mem_cons.mp hz with rfl | hz
        · exact le_refl _
        · exact hpost z hz hvz
  · intro h
    rcases swGo_some_spec verts th samples 0 none y h with ⟨hby, _⟩ |
      ⟨pre, post, hsplit, hv, hpos, hpre, hpost⟩
    · exact absurd hby (by simp)
    · refine ⟨pre, post, hsplit, hv, hpos, hpre, ?_⟩
      intro z hz hvz
      rw [hsplit] at hz
      rcases List.mem_append.mp hz with hz | hz
      · exact le_of_lt (hpre z hz hvz)
      · rcases List.mem_cons.mp hz with rfl | hz
        · exact le_refl _
        · exact hpost z hz hvz

/-- Twelve vertices spread along x at a single height. -/
def rowMesh : Mesh := (List.range 12).map (fun (k : ℕ) => ⟨(k:ℚ)/100, 1/2, 0⟩)

/-- C9 (witness): the amended statement applied to a concrete search in
which both loops select the single valid sample. -/
theorem C9_earliest_optimal_witness :
    (snGo rowMesh (1/10) none none [1/2] = some (1/2) ∧
     swGo rowMesh (1/10) 0 none [1/2] = some (1/2)) ∧
    (∃ pre post, [(1/2 : ℚ)] = pre ++ (1/2 : ℚ) :: post ∧
      10 < sliceCount rowMesh (1/2) (1/10) ∧
      (∀ z ∈ pre, 10 < sliceCount rowMesh z (1/10) →
        sliceWidthX rowMesh (1/2) (1/10) < sliceWidthX rowMesh z (1/10)) ∧
      (∀ z ∈ [(1/2 : ℚ)], 10 < sliceCount rowMesh z (1/10) →
        sliceWidthX rowMesh (1/2) (1/10) ≤ sliceWidthX rowMesh z (1/10))) ∧
    (∃ pre post, [(1/2 : ℚ)] = pre ++ (1/2 : ℚ) :: post ∧
      10 < sliceCount rowMesh (1/2) (1/10) ∧
      0 < sliceWidthX rowMesh (1/2) (1/10) ∧
      (∀ z ∈ pre, 10 < sliceCount rowMesh z (1/10) →
        sliceWidthX rowMesh z (1/10) < sliceWidthX rowMesh (1/2) (1/10)) ∧
      (∀ z ∈ [(1/2 : ℚ)], 10 < sliceCount rowMesh z (1/10) →
        sliceWidthX rowMesh z (1/10) ≤ sliceWidthX rowMesh (1/2) (1/10))) := by
  have hr : List.range 12 = [0,1,2,3,4,5,6,7,8,9,10,11] := by decide
  have hcnt : 10 < sliceCount rowMesh (1/2) (1/10) := by
    norm_num [sliceCount, sliceVerts, rowMesh, hr, List.filter_cons, abs_lt]
  have hw : sliceWidthX rowMesh (1/2) (1/10) = 11/100 := by
    norm_num [sliceWidthX, sliceVerts, xs, rowMesh, hr, List.filter_cons, abs_lt,
      listMax, listMin, max_def, min_def]
  have h1 : snGo rowMesh (1/10) none none [1/2] = some (1/2) := by
    rw [snGo, if_pos hcnt]
    rfl
  have h2 : swGo rowMesh (1/10) 0 none [1/2] = some (1/2) := by
    rw [swGo, if_pos hcnt, if_pos (by rw [hw]; norm_num)]
    rfl
  exact ⟨⟨h1, h2⟩, (C9_earliest_optimal rowMesh (1/10) [1/2] (1/2)).1 h1,
    (C9_earliest_optimal rowMesh (1/10) [1/2] (1/2)).2 h2⟩

/-! ## Claim C5: uniform scaling -/

/-- Pointwise scaling of a 2-D cross-section point. -/
def pmul (k : ℚ) (p : ℚ × ℚ) : ℚ × ℚ := (p.1 * k, p.2 * k)

lemma mul_sq_nonpos_iff (c k : ℚ) (hk : 0 < k) : c * k^2 ≤ 0 ↔ c ≤ 0 := by
  have h2 : 0 < k^2 := pow_pos hk 2
  constructor
  · intro h; nlinarith
  · intro h; nlinarith

lemma pmul_left_inj {k : ℚ} (hk : k ≠ 0) {p q : ℚ × ℚ} :
    pmul k p = pmul k q ↔ p = q := by
  unfold pmul
  rw [Prod.ext_iff, Prod.ext_iff]
  simp [mul_left_inj' hk]

lemma lexLe_pmul {k : ℚ} (hk : 0 < k) (p q : ℚ × ℚ) :
    lexLe (pmul k p) (pmul k q) = lexLe p q := by
  unfold lexLe pmul
  simp only [mul_lt_mul_right hk, mul_le_mul_right hk, mul_left_inj' hk.ne']

lemma insertLex_pmul {k : ℚ} (hk : 0 < k) (p : ℚ × ℚ) :
    ∀ l : List (ℚ × ℚ),
      insertLex (pmul k p) (l.map (pmul k)) = (insertLex p l).map (pmul k)
  | [] => rfl
  | q :: t => by
      simp only [List.map_cons, insertLex, lexLe_pmul hk]
      by_cases h : lexLe p q
      · rw [if_pos h, if_pos h]
        simp [List.map_cons]
      · rw [if_neg h, if_neg h]
        rw [List.map_cons, insertLex_pmul hk p t]

lemma sortLex_pmul {k : ℚ} (hk : 0 < k) :
    ∀ l : List (ℚ × ℚ), sortLex (l.map (pmul k)) = (sortLex l).map (pmul k)
  | [] => rfl
  | p :: t => by
      simp only [List.map_cons, sortLex]
      rw [sortLex_pmul hk t, insertLex_pmul hk p]

lemma dedupAdj_pmul {k : ℚ} (hk : k ≠ 0) :
    ∀ l : List (ℚ × ℚ), dedupAdj (l.map (pmul k)) = (dedupAdj l).map (pmul k)
  | [] => rfl
  | [p] => rfl
  | p :: q :: rest => by
      simp only [List.map_cons, dedupAdj]
      by_cases h : p = q
      · rw [if_pos ((pmul_left_inj hk).mpr h), if_pos h, ← List.map_cons,
          dedupAdj_pmul hk (q :: rest)]
      · rw [if_neg (fun hc => h ((pmul_left_inj hk).mp hc)), if_neg h, ← List.map_cons,
          dedupAdj_pmul hk (q :: rest)]
        simp [List.map_cons]

lemma cross_pmul (k : ℚ) (o a b : ℚ × ℚ) :
    cross (pmul k o) (pmul k a) (pmul k b) = cross o a b * k^2 := by
  unfold cross pmul
  ring

lemma chainStep_pmul {k : ℚ} (hk : 0 < k) :
    ∀ (l : List (ℚ × ℚ)) (p : ℚ × ℚ),
      chainStep (l.map (pmul k)) (pmul k p) = (chainStep l p).map (pmul k)
  | [], p => rfl
  | [b], p => rfl
  | b :: a :: rest, p => by
      by_cases h : cross a b p ≤ 0
      · have h' : cross (pmul k a) (pmul k b) (pmul k p) ≤ 0 := by
          rw [cross_pmul]
          exact (mul_sq_nonpos_iff _ k hk).mpr h
        rw [List.map_cons, List.map_cons, chainStep, if_pos h', ← List.map_cons,
          chainStep_pmul hk (a :: rest) p, chainStep, if_pos h]
      · have h' : ¬ cross (pmul k a) (pmul k b) (pmul k p) ≤ 0 := by
          rw [cross_pmul]
          exact fun hc => h ((mul_sq_nonpos_iff _ k hk).mp hc)
        rw [List.map_cons, List.map_cons, chainStep, if_neg h', chainStep, if_neg h]
        simp [List.map_cons]

lemma foldl_chainStep_pmul {k : ℚ} (hk : 0 < k) :
    ∀ (pts acc : List (ℚ × ℚ)),
      (pts.map (pmul k)).foldl chainStep (acc.map (pmul k))
        = (pts.foldl chainStep acc).map (pmul k)
  | [], acc => rfl
  | p :: t, acc => by
      simp only [List.map_cons, List.foldl_cons]
      rw [chainStep_pmul hk acc p]
      exact foldl_chainStep_pmul hk t (chainStep acc p)

lemma buildChain_pmul {k : ℚ} (hk : 0 < k) (pts : List (ℚ × ℚ)) :
    buildChain (pts.map (pmul k)) = (buildChain pts).map (pmul k) := by
  unfold buildChain
  have h := foldl_chainStep_pmul hk pts []
  simp only [List.map_nil] at h
  rw [h, List.map_reverse]

lemma dropLast_map {α β : Type} (f : α → β) (l : List α) :
    (l.map f).dropLast = l.dropLast.map f := by
  induction l with
  | nil => rfl
  | cons a t ih =>
      cases t with
      | nil => rfl
      | cons b u => simp [List.dropLast_cons₂, ih]

/-- The hull model is equivariant under uniform positive scaling (including
the degenerate `none` outcome). -/
lemma convexHull2D_pmul {k : ℚ} (hk : 0 < k) (pts : List (ℚ × ℚ)) :
    convexHull2D (pts.map (pmul k))
      = (convexHull2D pts).map (List.map (pmul k)) := by
  simp only [convexHull2D]
  rw [sortLex_pmul hk, dedupAdj_pmul hk.ne', List.length_map]
  by_cases h : (dedupAdj (sortLex pts)).length < 3
  · rw [if_pos h, if_pos h]
    rfl
  · rw [if_neg h, if_neg h]
    rw [buildChain_pmul hk, ← List.map_reverse, buildChain_pmul hk,
      dropLast_map, dropLast_map, ← List.map_append, List.length_map]
    by_cases h2 : ((buildChain (dedupAdj (sortLex pts))).dropLast ++
        (buildChain (dedupAdj (sortLex pts)).reverse).dropLast).length < 3
    · rw [if_pos h2, if_pos h2]
      rfl
    · rw [if_neg h2, if_neg h2]
      rfl

lemma sqDist_nonneg (p q : ℚ × ℚ) : 0 ≤ sqDist p q := by
  unfold sqDist
  positivity

lemma sqDist_pmul (k : ℚ) (p q : ℚ × ℚ) :
    sqDist (pmul k p) (pmul k q) = sqDist p q * k^2 := by
  unfold sqDist pmul
  ring

lemma perimeter_pmul {k : ℚ} (hk : 0 ≤ k) (cyc : List (ℚ × ℚ)) :
    perimeter (cyc.map (pmul k)) = (k : ℝ) * perimeter cyc := by
  unfold perimeter
  rw [← List.map_rotate, List.zip_map, List.map_map]
  have hfun : ∀ e ∈ cyc.zip (cyc.rotate 1),
      ((fun e => Real.sqrt ((sqDist e.1 e.2 : ℚ) : ℝ)) ∘ Prod.map (pmul k) (pmul k)) e
        = (k : ℝ) * Real.sqrt ((sqDist e.1 e.2 : ℚ) : ℝ) := by
    intro e _
    simp only [Function.comp, Prod.map]
    rw [sqDist_pmul]
    push_cast
    rw [show ((sqDist e.1 e.2 : ℚ) : ℝ) * ((k:ℝ))^2 = ((k:ℝ))^2 * ((sqDist e.1 e.2 : ℚ) : ℝ)
        from mul_comm _ _]
    rw [Real.sqrt_mul (sq_nonneg _), Real.sqrt_sq (by exact_mod_cast hk)]
  rw [List.map_congr_left hfun]
  rw [List.sum_map_mul_left]

lemma scaleVerts_length (verts : Mesh) (k : ℚ) :
    (scaleVerts verts k).length = verts.length := List.length_map _ _

lemma ys_scaleVerts (verts : Mesh) (k : ℚ) :
    ys (scaleVerts verts k) = (ys verts).map (fun q => q * k) := by
  simp [ys, scaleVerts, List.map_map, Function.comp]

lemma yRange_scaleVerts {k : ℚ} (hk : 0 ≤ k) (verts : Mesh) :
    yRange (scaleVerts verts k) = yRange verts * k := by
  rw [yRange, ys_scaleVerts, listMax_map_mul_right _ hk, listMin_map_mul_right _ hk,
    yRange]
  ring

lemma xzPoints_scaleVerts (verts : Mesh) (k : ℚ) :
    xzPoints (scaleVerts verts k) = (xzPoints verts).map (pmul k) := by
  simp [xzPoints, scaleVerts, List.map_map, Function.comp, pmul]

lemma sliceVerts_scaleVerts {k : ℚ} (hk : 0 < k) (verts : Mesh) (y th : ℚ) :
    sliceVerts (scaleVerts verts k) (y * k) (th * k)
      = scaleVerts (sliceVerts verts y th) k := by
  unfold sliceVerts scaleVerts
  rw [filter_map_comm]
  congr 1
  apply List.filter_congr
  intro v _
  simp only [decide_eq_decide]
  rw [show (Vec3.mk (v.x * k) (v.y * k) (v.z * k)).y - y * k = (v.y - y) * k by
      simp; ring,
    abs_mul, abs_of_pos hk, mul_lt_mul_right hk]

lemma simpleEllipse_smul (a b k : ℚ) :
    simpleEllipse (a * k) (b * k) = (k:ℝ) * simpleEllipse a b := by
  unfold simpleEllipse
  push_cast
  ring

lemma ramanujanEllipse_smul (a b k : ℚ) (hk : 0 ≤ k) :
    ramanujanEllipse (a * k) (b * k) = (k:ℝ) * ramanujanEllipse a b := by
  unfold ramanujanEllipse
  push_cast
  rw [show (3*((a:ℝ)*(k:ℝ))+(b:ℝ)*(k:ℝ))*((a:ℝ)*(k:ℝ)+3*((b:ℝ)*(k:ℝ)))
      = (k:ℝ)^2*((3*(a:ℝ)+(b:ℝ))*((a:ℝ)+3*(b:ℝ))) by ring]
  rw [Real.sqrt_mul (sq_nonneg _), Real.sqrt_sq (by exact_mod_cast hk)]
  ring

lemma map_fst_pmul (pts : List (ℚ × ℚ)) (k : ℚ) :
    (pts.map (pmul k)).map Prod.fst = (pts.map Prod.fst).map (fun q => q * k) := by
  simp [List.map_map, Function.comp, pmul]

lemma map_snd_pmul (pts : List (ℚ × ℚ)) (k : ℚ) :
    (pts.map (pmul k)).map Prod.snd = (pts.map Prod.snd).map (fun q => q * k) := by
  simp [List.map_map, Function.comp, pmul]

lemma xs_scaleVerts (verts : Mesh) (k : ℚ) :
    xs (scaleVerts verts k) = (xs verts).map (fun q => q * k) := by
  simp [xs, scaleVerts, List.map_map, Function.comp]

lemma zs_scaleVerts (verts : Mesh) (k : ℚ) :
    zs (scaleVerts verts k) = (zs verts).map (fun q => q * k) := by
  simp [zs, scaleVerts, List.map_map, Function.comp]

lemma sliceVerts_scale_eq {k : ℚ} (hk : 0 < k) (verts : Mesh) (y st : ℚ) :
    sliceVerts (scaleVerts verts k) (k * y) (yRange (scaleVerts verts k) * st)
      = scaleVerts (sliceVerts verts y (yRange verts * st)) k := by
  rw [yRange_scaleVerts hk.le, show yRange verts * k * st = (yRange verts * st) * k by ring,
    mul_comm k y, sliceVerts_scaleVerts hk]

lemma widthCm_scale {k : ℚ} (hk : 0 < k) (verts : Mesh) (y st : ℚ) :
    widthCm (scaleVerts verts k) (k * y) (yRange (scaleVerts verts k) * st)
      = widthCm verts y (yRange verts * st) * k := by
  simp only [widthCm]
  rw [sliceVerts_scale_eq hk, xs_scaleVerts,
    listMax_map_mul_right _ hk.le, listMin_map_mul_right _ hk.le]
  ring

lemma depthCm_scale {k : ℚ} (hk : 0 < k) (verts : Mesh) (y st : ℚ) :
    depthCm (scaleVerts verts k) (k * y) (yRange (scaleVerts verts k) * st)
      = depthCm verts y (yRange verts * st) * k := by
  simp only [depthCm]
  rw [sliceVerts_scale_eq hk, zs_scaleVerts,
    listMax_map_mul_right _ hk.le, listMin_map_mul_right _ hk.le]
  ring

lemma sliceCount_scale {k : ℚ} (hk : 0 < k) (verts : Mesh) (y st : ℚ) :
    (sliceVerts (scaleVerts verts k) (k * y) (yRange (scaleVerts verts k) * st)).length
      = (sliceVerts verts y (yRange verts * st)).length := by
  rw [sliceVerts_scale_eq hk, scaleVerts_length]

lemma method2_scale {k : ℚ} (hk : 0 < k) (verts : Mesh) (y st : ℚ) :
    method2 (scaleVerts verts k) (k * y) st
      = (method2 verts y st).map (fun c => (k:ℝ) * c) := by
  by_cases h : (sliceVerts verts y (yRange verts * st)).length < 10
  · rw [(method2_eq_none_iff _ _ _).mpr (by rw [sliceCount_scale hk]; exact h),
      (method2_eq_none_iff _ _ _).mpr h]
    rfl
  · rw [method2_eq_some _ _ _ (by rw [sliceCount_scale hk]; exact h),
      method2_eq_some _ _ _ h, Option.map_some', widthCm_scale hk, depthCm_scale hk]
    congr 1
    rw [show widthCm verts y (yRange verts * st) * k / 2
        = widthCm verts y (yRange verts * st) / 2 * k by ring,
      show depthCm verts y (yRange verts * st) * k / 2
        = depthCm verts y (yRange verts * st) / 2 * k by ring]
    exact simpleEllipse_smul _ _ k

lemma method3_scale {k : ℚ} (hk : 0 < k) (verts : Mesh) (y st : ℚ) :
    method3 (scaleVerts verts k) (k * y) st
      = (method3 verts y st).map (fun c => (k:ℝ) * c) := by
  by_cases h : (sliceVerts verts y (yRange verts * st)).length < 10
  · rw [(method3_eq_none_iff _ _ _).mpr (by rw [sliceCount_scale hk]; exact h),
      (method3_eq_none_iff _ _ _).mpr h]
    rfl
  · rw [method3_eq_some _ _ _ (by rw [sliceCount_scale hk]; exact h),
      method3_eq_some _ _ _ h, Option.map_some', widthCm_scale hk, depthCm_scale hk]
    congr 1
    rw [show widthCm verts y (yRange verts * st) * k / 2
        = widthCm verts y (yRange verts * st) / 2 * k by ring,
      show depthCm verts y (yRange verts * st) * k / 2
        = depthCm verts y (yRange verts * st) / 2 * k by ring]
    exact ramanujanEllipse_smul _ _ k hk.le

lemma method1_scale {k : ℚ} (hk : 0 < k) (verts : Mesh) (y st : ℚ) :
    method1 (scaleVerts verts k) (k * y) st
      = (method1 verts y st).map (fun c => (k:ℝ) * c) := by
  by_cases h : (sliceVerts verts y (yRange verts * st)).length < 10
  · rw [(method1_eq_none_iff _ _ _).mpr (by rw [sliceCount_scale hk]; exact h),
      (method1_eq_none_iff _ _ _).mpr h]
    rfl
  · have hxz : xzPoints (sliceVerts (scaleVerts verts k) (k * y)
        (yRange (scaleVerts verts k) * st))
        = (xzPoints (sliceVerts verts y (yRange verts * st))).map (pmul k) := by
      rw [sliceVerts_scale_eq hk, xzPoints_scaleVerts]
    cases hh : convexHull2D (xzPoints (sliceVerts verts y (yRange verts * st))) with
    | some cyc =>
        have hh2 : convexHull2D (xzPoints (sliceVerts (scaleVerts verts k) (k * y)
            (yRange (scaleVerts verts k) * st))) = some (cyc.map (pmul k)) := by
          rw [hxz, convexHull2D_pmul hk, hh]
          rfl
        rw [method1_eq_hull _ _ _ _ (by rw [sliceCount_scale hk]; exact h) hh2,
          method1_eq_hull _ _ _ _ h hh, Option.map_some', perimeter_pmul hk.le]
        congr 1
        ring
    | none =>
        have hh2 : convexHull2D (xzPoints (sliceVerts (scaleVerts verts k) (k * y)
            (yRange (scaleVerts verts k) * st))) = none := by
          rw [hxz, convexHull2D_pmul hk, hh]
          rfl
        rw [method1_eq_fallback _ _ _ (by rw [sliceCount_scale hk]; exact h) hh2,
          method1_eq_fallback _ _ _ h hh, Option.map_some', widthCm_scale hk,
          depthCm_scale hk]
        congr 1
        rw [show widthCm verts y (yRange verts * st) * k / 2
            = widthCm verts y (yRange verts * st) / 2 * k by ring,
          show depthCm verts y (yRange verts * st) * k / 2
            = depthCm verts y (yRange verts * st) / 2 * k by ring]
        exact ramanujanEllipse_smul _ _ k hk.le

/-- C5: multiplying every vertex coordinate by `k > 0` and slicing at
`k * y` multiplies each of the three estimators' results by exactly `k`
(in exact arithmetic), `None` results included. -/
theorem C5_uniform_scale (k : ℚ) (verts : Mesh) (y st : ℚ) (hk : 0 < k) :
    method1 (scaleVerts verts k) (k * y) st
        = (method1 verts y st).map (fun c => (k:ℝ) * c) ∧
    method2 (scaleVerts verts k) (k * y) st
        = (method2 verts y st).map (fun c => (k:ℝ) * c) ∧
    method3 (scaleVerts verts k) (k * y) st
        = (method3 verts y st).map (fun c => (k:ℝ) * c) :=
  ⟨method1_scale hk verts y st, method2_scale hk verts y st, method3_scale hk verts y st⟩

/-- C5 (witness): instantiated at `k = 2` on the 20 cm × 12 cm slice. -/
theorem C5_uniform_scale_witness :
    (0:ℚ) < 2 ∧
    (method1 (scaleVerts ellipseSliceMesh 2) (2 * 0) (3/100)
        = (method1 ellipseSliceMesh 0 (3/100)).map (fun c => ((2:ℚ):ℝ) * c) ∧
      method2 (scaleVerts ellipseSliceMesh 2) (2 * 0) (3/100)
        = (method2 ellipseSliceMesh 0 (3/100)).map (fun c => ((2:ℚ):ℝ) * c) ∧
      method3 (scaleVerts ellipseSliceMesh 2) (2 * 0) (3/100)
        = (method3 ellipseSliceMesh 0 (3/100)).map (fun c => ((2:ℚ):ℝ) * c)) :=
  ⟨by norm_num, C5_uniform_scale 2 ellipseSliceMesh 0 (3/100) (by norm_num)⟩

/-! ## Claim C7: hull perimeter vs simple ellipse -/

lemma sqrt_le_of_le_sq {x q : ℝ} (hq : 0 ≤ q) (h : x ≤ q^2) : Real.sqrt x ≤ q := by
  calc Real.sqrt x ≤ Real.sqrt (q^2) := Real.sqrt_le_sqrt h
    _ = q := Real.sqrt_sq hq

/-- Perimeter of an axis-aligned rectangle cycle. -/
lemma perimeter_rect (x1 x2 z1 z2 : ℚ) (hx : x1 ≤ x2) (hz : z1 ≤ z2) :
    perimeter [(x1,z1),(x2,z1),(x2,z2),(x1,z2)]
      = (((x2-x1) + (z2-z1) : ℚ) : ℝ) * 2 := by
  have hrot : [(x1,z1),(x2,z1),(x2,z2),(x1,z2)].rotate 1
      = [(x2,z1),(x2,z2),(x1,z2),(x1,z1)] := by
    simp [List.rotate]
  unfold perimeter
  rw [hrot]
  simp only [List.zip_cons_cons, List.zip_nil_right, List.map_cons, List.map_nil,
    List.sum_cons, List.sum_nil, sqDist]
  have e1 : Real.sqrt ((((x2,z1).1 - (x1,z1).1)^2 + ((x2,z1).2 - (x1,z1).2)^2 : ℚ) : ℝ)
      = ((x2 - x1 : ℚ) : ℝ) := by
    push_cast
    rw [show ((x2:ℝ) - x1)^2 + ((z1:ℝ) - z1)^2 = ((x2:ℝ) - x1)^2 by ring,
      Real.sqrt_sq_eq_abs, abs_of_nonneg (by exact_mod_cast sub_nonneg.mpr hx)]
  have e2 : Real.sqrt ((((x2,z2).1 - (x2,z1).1)^2 + ((x2,z2).2 - (x2,z1).2)^2 : ℚ) : ℝ)
      = ((z2 - z1 : ℚ) : ℝ) := by
    push_cast
    rw [show ((x2:ℝ) - x2)^2 + ((z2:ℝ) - z1)^2 = ((z2:ℝ) - z1)^2 by ring,
      Real.sqrt_sq_eq_abs, abs_of_nonneg (by exact_mod_cast sub_nonneg.mpr hz)]
  have e3 : Real.sqrt ((((x1,z2).1 - (x2,z2).1)^2 + ((x1,z2).2 - (x2,z2).2)^2 : ℚ) : ℝ)
      = ((x2 - x1 : ℚ) : ℝ) := by
    push_cast
    rw [show ((x1:ℝ) - x2)^2 + ((z2:ℝ) - z2)^2 = ((x2:ℝ) - x1)^2 by ring,
      Real.sqrt_sq_eq_abs, abs_of_nonneg (by exact_mod_cast sub_nonneg.mpr hx)]
  have e4 : Real.sqrt ((((x1,z1).1 - (x1,z2).1)^2 + ((x1,z1).2 - (x1,z2).2)^2 : ℚ) : ℝ)
      = ((z2 - z1 : ℚ) : ℝ) := by
    push_cast
    rw [show ((x1:ℝ) - x1)^2 + ((z1:ℝ) - z2)^2 = ((z2:ℝ) - z1)^2 by ring,
      Real.sqrt_sq_eq_abs, abs_of_nonneg (by exact_mod_cast sub_nonneg.mpr hz)]
  rw [e1, e2, e3, e4]
  push_cast
  ring

/-- C7 (amended): whenever the convex hull computed for a slice is exactly
the slice's bounding rectangle, the hull-perimeter estimate (method 1)
dominates the simple-ellipse estimate (method 2): the rectangle perimeter
is `(4/π)` times the ellipse estimate.  (For thin diagonal cross-sections
the hull can be strictly shorter - see the counterexample.) -/
theorem C7_hull_dominates_when_rectangular (verts : Mesh) (y st : ℚ)
    (h10 : ¬ (sliceVerts verts y (yRange verts * st)).length < 10)
    (hrect : convexHull2D (xzPoints (sliceVerts verts y (yRange verts * st))) = some
      [(listMin (xs (sliceVerts verts y (yRange verts * st))),
        listMin (zs (sliceVerts verts y (yRange verts * st)))),
       (listMax (xs (sliceVerts verts y (yRange verts * st))),
        listMin (zs (sliceVerts verts y (yRange verts * st)))),
       (listMax (xs (sliceVerts verts y (yRange verts * st))),
        listMax (zs (sliceVerts verts y (yRange verts * st)))),
       (listMin (xs (sliceVerts verts y (yRange verts * st))),
        listMax (zs (sliceVerts verts y (yRange verts * st))))]) :
    ∃ c1 c2, method1 verts y st = some c1 ∧ method2 verts y st = some c2 ∧
      c2 ≤ c1 := by
  have hne : sliceVerts verts y (yRange verts * st) ≠ [] := by
    intro hnil
    rw [hnil] at h10
    simp at h10
  have hxne : xs (sliceVerts verts y (yRange verts * st)) ≠ [] := by
    simpa [xs] using hne
  have hzne : zs (sliceVerts verts y (yRange verts * st)) ≠ [] := by
    simpa [zs] using hne
  have hx := listMin_le_listMax hxne
  have hz := listMin_le_listMax hzne
  refine ⟨_, _, method1_eq_hull _ _ _ _ h10 hrect, method2_eq_some _ _ _ h10, ?_⟩
  rw [perimeter_rect _ _ _ _ hx hz]
  simp only [widthCm, depthCm, simpleEllipse]
  have hWr : (0:ℝ) ≤ ((listMax (xs (sliceVerts verts y (yRange verts * st))) : ℝ)
      - (listMin (xs (sliceVerts verts y (yRange verts * st))) : ℝ)) := by
    exact_mod_cast sub_nonneg.mpr hx
  have hDr : (0:ℝ) ≤ ((listMax (zs (sliceVerts verts y (yRange verts * st))) : ℝ)
      - (listMin (zs (sliceVerts verts y (yRange verts * st))) : ℝ)) := by
    exact_mod_cast sub_nonneg.mpr hz
  push_cast
  nlinarith [Real.pi_le_four, hWr, hDr,
    mul_le_mul_of_nonneg_right Real.pi_le_four (add_nonneg hWr hDr)]

/-- The hull cycle of the sliver cross-section: all ten points are hull
vertices (strictly convex position). -/
def sliverHull : List (ℚ × ℚ) :=
  [(0,0),(250,184),(500,376),(750,576),(1000,784),(1250,1000),
   (1000,816),(750,624),(500,424),(250,216)]

/-- C7 (counterexample): on the thin diagonal sliver slice - a strictly
convex, non-circular cross-section (all ten projected points are hull
vertices and the bounding box is not square) - the convex-hull perimeter
estimate is strictly SMALLER than the simple-ellipse estimate. -/
theorem C7_counterexample :
    convexHull2D (xzPoints (sliceVerts sliverMesh 0 (yRange sliverMesh * (2/100))))
      = some sliverHull ∧
    sliverHull.length
      = (sliceVerts sliverMesh 0 (yRange sliverMesh * (2/100))).length ∧
    widthCm sliverMesh 0 (yRange sliverMesh * (2/100))
      ≠ depthCm sliverMesh 0 (yRange sliverMesh * (2/100)) ∧
    method1 sliverMesh 0 (2/100) = some (perimeter sliverHull * 100) ∧
    method2 sliverMesh 0 (2/100) = some (simpleEllipse 62500 50000) ∧
    perimeter sliverHull * 100 < simpleEllipse 62500 50000 := by
  have hxz : xzPoints (sliceVerts sliverMesh 0 (yRange sliverMesh * (2/100)))
      = sliverPts := by
    norm_num [xzPoints, sliceVerts, sliverMesh, sliverPts, yRange, ys, listMax,
      listMin, max_def, min_def, List.filter_cons, abs_lt]
  have hhull : convexHull2D sliverPts = some sliverHull := by
    norm_num [sliverPts, sliverHull, convexHull2D, sortLex, insertLex, lexLe, dedupAdj,
      buildChain, chainStep, cross, List.foldl, Prod.mk.injEq,
      ← Prod.mk_zero_zero, ← Prod.mk_one_one]
  have hcnt : ¬ (sliceVerts sliverMesh 0 (yRange sliverMesh * (2/100))).length < 10 := by
    norm_num [sliceVerts, sliverMesh, sliverPts, yRange, ys, listMax, listMin,
      max_def, min_def, List.filter_cons, abs_lt]
  have hlen : sliverHull.length
      = (sliceVerts sliverMesh 0 (yRange sliverMesh * (2/100))).length := by
    norm_num [sliverHull, sliceVerts, sliverMesh, sliverPts, yRange, ys, listMax,
      listMin, max_def, min_def, List.filter_cons, abs_lt]
  have hW : widthCm sliverMesh 0 (yRange sliverMesh * (2/100)) = 125000 := by
    norm_num [widthCm, sliceVerts, sliverMesh, sliverPts, xs, yRange, ys, listMax,
      listMin, max_def, min_def, List.filter_cons, abs_lt]
  have hD : depthCm sliverMesh 0 (yRange sliverMesh * (2/100)) = 100000 := by
    norm_num [depthCm, sliceVerts, sliverMesh, sliverPts, zs, yRange, ys, listMax,
      listMin, max_def, min_def, List.filter_cons, abs_lt]
  have hm1 : method1 sliverMesh 0 (2/100) = some (perimeter sliverHull * 100) :=
    method1_eq_hull _ _ _ _ hcnt (by rw [hxz]; exact hhull)
  have hm2 : method2 sliverMesh 0 (2/100) = some (simpleEllipse 62500 50000) := by
    rw [method2_eq_some _ _ _ hcnt, hW, hD]
    norm_num
  have hperim : perimeter sliverHull
      = Real.sqrt 96356 + Real.sqrt 99364 + Real.sqrt 102500 + Real.sqrt 105764 +
        Real.sqrt 109156 + Real.sqrt 96356 + Real.sqrt 99364 + Real.sqrt 102500 +
        Real.sqrt 105764 + Real.sqrt 109156 := by
    have hrot : sliverHull.rotate 1
        = [(250,184),(500,376),(750,576),(1000,784),(1250,1000),
           (1000,816),(750,624),(500,424),(250,216),(0,0)] := by
      simp [sliverHull, List.rotate]
    unfold perimeter
    rw [hrot]
    norm_num [sliverHull, sqDist, ← Prod.mk_zero_zero]
    ring
  have hb1 : Real.sqrt 96356 ≤ 310.5 := sqrt_le_of_le_sq (by norm_num) (by norm_num)
  have hb2 : Real.sqrt 99364 ≤ 315.3 := sqrt_le_of_le_sq (by norm_num) (by norm_num)
  have hb3 : Real.sqrt 102500 ≤ 320.2 := sqrt_le_of_le_sq (by norm_num) (by norm_num)
  have hb4 : Real.sqrt 105764 ≤ 325.3 := sqrt_le_of_le_sq (by norm_num) (by norm_num)
  have hb5 : Real.sqrt 109156 ≤ 330.4 := sqrt_le_of_le_sq (by norm_num) (by norm_num)
  have hπ : (3.141592 : ℝ) < Real.pi := Real.pi_gt_d6
  have hse : simpleEllipse 62500 50000 = Real.pi * 112500 := by
    unfold simpleEllipse
    norm_num
  refine ⟨by rw [hxz]; exact hhull, hlen, by rw [hW, hD]; norm_num, hm1, hm2, ?_⟩
  rw [hperim, hse]
  nlinarith [hb1, hb2, hb3, hb4, hb5, hπ]

/-- C7 (witness): the amended statement instantiated on a slice containing
its bounding-box corners, whose hull is concretely the rectangle. -/
theorem C7_hull_dominates_witness :
    (¬ (sliceVerts rectMesh 0 (yRange rectMesh * (2/100))).length < 10) ∧
    (∃ c1 c2, method1 rectMesh 0 (2/100) = some c1 ∧
      method2 rectMesh 0 (2/100) = some c2 ∧ c2 ≤ c1) := by
  have hcnt : ¬ (sliceVerts rectMesh 0 (yRange rectMesh * (2/100))).length < 10 := by
    norm_num [sliceVerts, rectMesh, yRange, ys, listMax, listMin,
      max_def, min_def, List.filter_cons, abs_lt]
  have hxz : xzPoints (sliceVerts rectMesh 0 (yRange rectMesh * (2/100)))
      = [(0,0),(4,0),(4,2),(0,2),(1,1),(2,1),(3,1),(1/2,1),(3/2,1),(5/2,1)] := by
    norm_num [xzPoints, sliceVerts, rectMesh, yRange, ys, listMax, listMin,
      max_def, min_def, List.filter_cons, abs_lt]
  have hmins : listMin (xs (sliceVerts rectMesh 0 (yRange rectMesh * (2/100)))) = 0 ∧
      listMax (xs (sliceVerts rectMesh 0 (yRange rectMesh * (2/100)))) = 4 ∧
      listMin (zs (sliceVerts rectMesh 0 (yRange rectMesh * (2/100)))) = 0 ∧
      listMax (zs (sliceVerts rectMesh 0 (yRange rectMesh * (2/100)))) = 2 := by
    refine ⟨?_, ?_, ?_, ?_⟩ <;>
      norm_num [xs, zs, sliceVerts, rectMesh, yRange, ys, listMax, listMin,
        max_def, min_def, List.filter_cons, abs_lt]
  have hhull : convexHull2D (xzPoints (sliceVerts rectMesh 0 (yRange rectMesh * (2/100))))
      = some [(0,0),(4,0),(4,2),(0,2)] := by
    rw [hxz]
    norm_num [convexHull2D, sortLex, insertLex, lexLe, dedupAdj,
      buildChain, chainStep, cross, List.foldl, Prod.mk.injEq,
      ← Prod.mk_zero_zero, ← Prod.mk_one_one]
  refine ⟨hcnt, C7_hull_dominates_when_rectangular rectMesh 0 (2/100) hcnt ?_⟩
  rw [hmins.1, hmins.2.1, hmins.2.2.1, hmins.2.2.2]
  exact hhull

end AvatarMeasure
